import Mathlib

/-!
Shallow embedding of the a2a-x402 Go repository (metadata codec, payment
state model, and merchant orchestrator), with theorems checking the
natural-language specification against it.

Sources embedded:
* `core/x402/constants.go` - metadata keys, extension URI
* `core/x402/state` - `PaymentStatus`, `PaymentState`, extract/set/record
* `core/merchant` - `BusinessOrchestrator.Execute`, handlers, transitions

Go `map[string]interface{}` metadata bags are modelled as association
lists of `Value`s; Go pointers that may be nil are modelled as `Option`;
Go `(T, error)` results are modelled as `Except String T`; a nil-pointer
dereference is modelled as a distinguished `nilPanic` outcome.
-/

namespace X402

/-- A dynamic JSON-like value, the model of Go `interface{}` as it appears
in A2A metadata maps (after JSON round-trip every value has this shape). -/
inductive Value where
  | vStr : String → Value
  | vNat : Nat → Value
  | vBool : Bool → Value
  | vArr : List Value → Value
  | vObj : List (String × Value) → Value

/-- Model of a Go `map[string]interface{}`: an association list keyed by
strings, with at most one binding per key maintained by `metaInsert`. -/
abbrev Meta := List (String × Value)

/-- Map lookup, model of `m[key]` with its presence bit. -/
def metaLookup : Meta → String → Option Value
  | [], _ => none
  | (k, v) :: rest, key => if k = key then some v else metaLookup rest key

/-- Map update, model of `m[key] = v` (replaces an existing binding). -/
def metaInsert : Meta → String → Value → Meta
  | [], key, v => [(key, v)]
  | (k, w) :: rest, key, v =>
    if k = key then (k, v) :: rest else (k, w) :: metaInsert rest key v

/-- Map deletion, model of `delete(m, key)`. -/
def metaErase : Meta → String → Meta
  | [], _ => []
  | (k, w) :: rest, key =>
    if k = key then metaErase rest key else (k, w) :: metaErase rest key

/-! ## Constants (`core/x402/constants.go`) -/

def X402ExtensionURI : String :=
  "https://github.com/google-agentic-commerce/a2a-x402/blob/main/spec/v0.2"

def MetadataKeyStatus : String := "x402.payment.status"
def MetadataKeyRequired : String := "x402.payment.required"
def MetadataKeyPayload : String := "x402.payment.payload"
def MetadataKeyReceipts : String := "x402.payment.receipts"
def MetadataKeyError : String := "x402.payment.error"
def MetadataKeyOriginalPrompt : String := "x402.payment.original_prompt"

/-! ## A2A transport types (external `a2a-go` library, as observed) -/

inductive MessageRole where
  | user
  | agent
  deriving DecidableEq, Repr

/-- A message part; the code only distinguishes `TextPart` from the rest. -/
inductive Part where
  | text : String → Part
  | other : Value → Part

/-- Model of `a2a.Message`: role, task id, parts and the metadata bag
(`none` models a nil Go map, returned unchanged by `Meta()`). -/
structure Message where
  role : MessageRole
  taskID : String
  parts : List Part
  metadata : Option Meta

inductive TaskState where
  | submitted
  | working
  | inputRequired
  | completed
  | failed
  deriving DecidableEq, Repr

structure TaskStatus where
  state : TaskState
  message : Option Message

structure Task where
  id : String
  contextId : String
  status : TaskStatus

/-- Lookup of a key inside a message metadata bag (nil map holds no key). -/
def msgMetaLookup (msg : Message) (key : String) : Option Value :=
  match msg.metadata with
  | none => none
  | some md => metaLookup md key

/-! ## Payment state model (`core/x402/state/model.go`) -/

/-- `type PaymentStatus string`: a Go string type; arbitrary wire strings
convert into it freely, `IsValid` marks the six defined tokens. -/
abbrev PaymentStatus := String

def PaymentRequiredStatus : PaymentStatus := "payment-required"
def PaymentSubmittedStatus : PaymentStatus := "payment-submitted"
def PaymentVerifiedStatus : PaymentStatus := "payment-verified"
def PaymentRejectedStatus : PaymentStatus := "payment-rejected"
def PaymentCompletedStatus : PaymentStatus := "payment-completed"
def PaymentFailedStatus : PaymentStatus := "payment-failed"

/-- `PaymentStatus.IsValid`: true exactly on the six defined tokens. -/
def PaymentStatus.IsValid (ps : PaymentStatus) : Bool :=
  ps = PaymentRequiredStatus || ps = PaymentSubmittedStatus ||
  ps = PaymentVerifiedStatus || ps = PaymentRejectedStatus ||
  ps = PaymentCompletedStatus || ps = PaymentFailedStatus

/-! ## Payment value types

Modelled from the spec: the Go types `x402types.PaymentRequirements`,
`x402types.PaymentRequired`, `x402types.PaymentPayload` and
`x402core.SettleResponse` live in the external `coinbase/x402` module
whose source is not part of this repository; their observable fields are
taken from the data-model section of the specification (scheme, network,
asset, payTo, amount, maxTimeoutSeconds, extra; the PaymentRequired
envelope with x402Version and accepts; the payload echoing one accepted
requirement plus a scheme-specific object; the settle receipt with
success, network, transaction, payer, errorReason). -/

structure PaymentRequirements where
  scheme : String
  network : String
  asset : String
  payTo : String
  amount : String
  maxTimeoutSeconds : Nat
  extra : List (String × Value)

structure PaymentRequired where
  x402Version : Nat
  accepts : List PaymentRequirements

structure PaymentPayload where
  x402Version : Nat
  accepted : PaymentRequirements
  payload : Value

structure SettleResponse where
  success : Bool
  network : String
  transaction : String
  payer : String
  errorReason : String

/-- Model of `business.ServiceRequirements` (`core/business`). -/
structure ServiceRequirements where
  price : String
  resource : String
  description : String
  mimeType : String
  scheme : String
  maxTimeoutSeconds : Nat

/-- Model of `types.NetworkConfig`. -/
structure NetworkConfig where
  networkName : String
  payToAddress : String

/-- Model of `x402core.VerifyResponse` as observed by the orchestrator. -/
structure VerifyResponse where
  isValid : Bool
  invalidReason : String
  invalidMessage : String

/-! ## Metadata codec for the payment value types

Modelled from the spec: `utils.ToMap`/`utils.FromMap` JSON-round-trip a
typed value through a generic map with no schema loss; the encoding below
fixes one JSON tree per type and the decoder rejects values of the wrong
dynamic shape. -/

def PaymentRequirements.toMap (r : PaymentRequirements) : Meta :=
  [("scheme", .vStr r.scheme), ("network", .vStr r.network),
   ("asset", .vStr r.asset), ("payTo", .vStr r.payTo),
   ("amount", .vStr r.amount),
   ("maxTimeoutSeconds", .vNat r.maxTimeoutSeconds),
   ("extra", .vObj r.extra)]

def PaymentRequirements.fromMap (m : Meta) : Option PaymentRequirements :=
  match metaLookup m "scheme", metaLookup m "network", metaLookup m "asset",
      metaLookup m "payTo", metaLookup m "amount",
      metaLookup m "maxTimeoutSeconds", metaLookup m "extra" with
  | some (.vStr s), some (.vStr n), some (.vStr a), some (.vStr p),
      some (.vStr am), some (.vNat t), some (.vObj e) =>
    some ⟨s, n, a, p, am, t, e⟩
  | _, _, _, _, _, _, _ => none

/-- Decode a JSON array of requirement objects, rejecting non-object
elements and malformed objects. -/
def decodeReqList : List Value → Option (List PaymentRequirements)
  | [] => some []
  | .vObj m :: rest =>
    match PaymentRequirements.fromMap m, decodeReqList rest with
    | some r, some rs => some (r :: rs)
    | _, _ => none
  | _ :: _ => none

def PaymentRequired.toMap (pr : PaymentRequired) : Meta :=
  [("x402Version", .vNat pr.x402Version),
   ("accepts", .vArr (pr.accepts.map (fun r => .vObj r.toMap)))]

def PaymentRequired.fromMap (m : Meta) : Option PaymentRequired :=
  match metaLookup m "x402Version", metaLookup m "accepts" with
  | some (.vNat v), some (.vArr l) =>
    match decodeReqList l with
    | some rs => some ⟨v, rs⟩
    | none => none
  | _, _ => none

def PaymentPayload.toMap (p : PaymentPayload) : Meta :=
  [("x402Version", .vNat p.x402Version),
   ("accepted", .vObj p.accepted.toMap),
   ("payload", p.payload)]

def PaymentPayload.fromMap (m : Meta) : Option PaymentPayload :=
  match metaLookup m "x402Version", metaLookup m "accepted",
      metaLookup m "payload" with
  | some (.vNat v), some (.vObj a), some pl =>
    match PaymentRequirements.fromMap a with
    | some ar => some ⟨v, ar, pl⟩
    | none => none
  | _, _, _ => none

def SettleResponse.toMap (s : SettleResponse) : Meta :=
  [("success", .vBool s.success), ("network", .vStr s.network),
   ("transaction", .vStr s.transaction), ("payer", .vStr s.payer),
   ("errorReason", .vStr s.errorReason)]

def SettleResponse.fromMap (m : Meta) : Option SettleResponse :=
  match metaLookup m "success", metaLookup m "network",
      metaLookup m "transaction", metaLookup m "payer",
      metaLookup m "errorReason" with
  | some (.vBool ok), some (.vStr n), some (.vStr t), some (.vStr p),
      some (.vStr e) => some ⟨ok, n, t, p, e⟩
  | _, _, _, _, _ => none

/-- Aggregate `state.PaymentState`. -/
structure PaymentState where
  status : PaymentStatus
  message : String
  requirements : Option PaymentRequired
  payload : Option PaymentPayload
  receipts : List SettleResponse

/-! ## Extraction (`core/x402/state/extract.go`) -/

/-- The task half of `ExtractPaymentStatus`. -/
def extractStatusTaskPart (task : Option Task) :
    Except String PaymentStatus :=
  match task with
  | some t =>
    match t.status.message with
    | some m =>
      match msgMetaLookup m MetadataKeyStatus with
      | some (.vStr s) => .ok s
      | _ => .ok ""
    | none => .ok ""
  | none => .ok ""

/-- `ExtractPaymentStatus(task, message)`: live message first, then the
task status message; a missing key or a non-string value falls through;
never returns an error. -/
def ExtractPaymentStatus (task : Option Task) (message : Option Message) :
    Except String PaymentStatus :=
  match message with
  | some msg =>
    match msgMetaLookup msg MetadataKeyStatus with
    | some (.vStr s) => .ok s
    | _ => extractStatusTaskPart task
  | none => extractStatusTaskPart task

/-- `ExtractPaymentStatusFromTask`: errors on a nil task, then reads the
status key from the task status message and gates it with `IsValid`. -/
def ExtractPaymentStatusFromTask (task : Option Task) :
    Except String PaymentStatus :=
  match task with
  | none => .error "task is nil"
  | some t =>
    match t.status.message with
    | none => .ok ""
    | some m =>
      match m.metadata with
      | none => .ok ""
      | some md =>
        match metaLookup md MetadataKeyStatus with
        | some (.vStr s) =>
          if PaymentStatus.IsValid s then .ok s else .ok ""
        | _ => .ok ""

/-- `ExtractPaymentRequirements(task)`: reads the required key from the
task status message only; absent key gives `none`, a non-map value or a
malformed map gives an error. -/
def ExtractPaymentRequirements (task : Option Task) :
    Except String (Option PaymentRequired) :=
  match task with
  | some t =>
    match t.status.message with
    | some m =>
      match msgMetaLookup m MetadataKeyRequired with
      | some (.vObj reqMap) =>
        match PaymentRequired.fromMap reqMap with
        | some pr => .ok (some pr)
        | none => .error "failed to unmarshal payment requirements"
      | some _ => .error "payment requirements is not a map"
      | none => .ok none
    | none => .ok none
  | none => .ok none

/-- Decode the receipts array elementwise, erroring on a non-map element
or a malformed receipt map. -/
def decodeReceiptList : List Value → Except String (List SettleResponse)
  | [] => .ok []
  | .vObj m :: rest =>
    match SettleResponse.fromMap m with
    | some r =>
      match decodeReceiptList rest with
      | .ok rs => .ok (r :: rs)
      | .error e => .error e
    | none => .error "failed to unmarshal receipt"
  | _ :: _ => .error "receipt data is not a map"

/-- `ExtractPaymentReceipts(task)`: reads the receipts key from the task
status message only; an absent key or a non-array value gives the empty
list, a bad element gives an error. -/
def ExtractPaymentReceipts (task : Option Task) :
    Except String (List SettleResponse) :=
  match task with
  | some t =>
    match t.status.message with
    | some m =>
      match msgMetaLookup m MetadataKeyReceipts with
      | some (.vArr l) => decodeReceiptList l
      | _ => .ok []
    | none => .ok []
  | none => .ok []

/-- Decode one payload metadata value (`meta[key]` already fetched). -/
def decodePayloadValue (v : Value) : Except String (Option PaymentPayload) :=
  match v with
  | .vObj payloadMap =>
    match PaymentPayload.fromMap payloadMap with
    | some p => .ok (some p)
    | none => .error "failed to unmarshal payment payload"
  | _ => .error "payment payload is not a map"

/-- The task half of `ExtractPaymentPayload`. -/
def extractPayloadTaskPart (task : Option Task) :
    Except String (Option PaymentPayload) :=
  match task with
  | some t =>
    match t.status.message with
    | some m =>
      match msgMetaLookup m MetadataKeyPayload with
      | some v => decodePayloadValue v
      | none => .ok none
    | none => .ok none
  | none => .ok none

/-- `ExtractPaymentPayload(task, message)`: live message first, then the
task status message; a present key of the wrong shape is an error. -/
def ExtractPaymentPayload (task : Option Task) (message : Option Message) :
    Except String (Option PaymentPayload) :=
  match message with
  | some msg =>
    match msgMetaLookup msg MetadataKeyPayload with
    | some v => decodePayloadValue v
    | none => extractPayloadTaskPart task
  | none => extractPayloadTaskPart task

/-- `ExtractOriginalPrompt(task)`: the original-prompt key of the task
status message when it is a string, `""` otherwise. -/
def ExtractOriginalPrompt (task : Option Task) : String :=
  match task with
  | some t =>
    match t.status.message with
    | some m =>
      match msgMetaLookup m MetadataKeyOriginalPrompt with
      | some (.vStr s) => s
      | _ => ""
    | none => ""
  | none => ""

/-- First non-empty `TextPart` in a part list. -/
def firstText : List Part → String
  | [] => ""
  | .text s :: rest => if s = "" then firstText rest else s
  | .other _ :: rest => firstText rest

/-- `ExtractMessageText(message)`: first non-empty text part. -/
def ExtractMessageText (message : Option Message) : String :=
  match message with
  | none => ""
  | some msg => firstText msg.parts

/-- `ExtractPaymentState(task, message)`: compose the four extractors,
propagating the first error. -/
def ExtractPaymentState (task : Option Task) (message : Option Message) :
    Except String PaymentState :=
  match ExtractPaymentStatus task message with
  | .error e => .error ("failed to extract payment status: " ++ e)
  | .ok status =>
    match ExtractPaymentPayload task message with
    | .error e => .error ("failed to extract payment payload: " ++ e)
    | .ok payload =>
      match ExtractPaymentRequirements task with
      | .error e => .error ("failed to extract payment requirements: " ++ e)
      | .ok requirements =>
        match ExtractPaymentReceipts task with
        | .error e => .error ("failed to extract payment receipts: " ++ e)
        | .ok receipts => .ok ⟨status, "", requirements, payload, receipts⟩

/-! ## Mutation (`core/x402/state/set.go`)

Go mutates the message in place; the model returns the updated message.
`utils.ToMap` on these concrete struct types cannot fail (every field is
JSON-marshalable), so the error branches of the setters are unreachable
and the model returns the message directly. -/

/-- `SetPaymentStatus`: allocate the map if nil, then write the key. -/
def SetPaymentStatus (msg : Message) (status : PaymentStatus) : Message :=
  { msg with
    metadata :=
      some (metaInsert (msg.metadata.getD []) MetadataKeyStatus (.vStr status)) }

/-- `SetPaymentRequirements`: a nil argument leaves the message alone. -/
def SetPaymentRequirements (msg : Message)
    (requirements : Option PaymentRequired) : Message :=
  match requirements with
  | none => msg
  | some r =>
    { msg with
      metadata :=
        some (metaInsert (msg.metadata.getD []) MetadataKeyRequired
          (.vObj r.toMap)) }

/-- `SetPaymentPayload`: a nil argument leaves the message alone. -/
def SetPaymentPayload (msg : Message) (payload : Option PaymentPayload) :
    Message :=
  match payload with
  | none => msg
  | some p =>
    { msg with
      metadata :=
        some (metaInsert (msg.metadata.getD []) MetadataKeyPayload
          (.vObj p.toMap)) }

/-- `SetPaymentReceipts`: appends to any pre-existing receipts array; an
empty argument is a no-op. -/
def SetPaymentReceipts (msg : Message) (receipts : List SettleResponse) :
    Message :=
  match receipts with
  | [] => msg
  | _ =>
    let md := msg.metadata.getD []
    let existing : List Value :=
      match metaLookup md MetadataKeyReceipts with
      | some (.vArr l) => l
      | _ => []
    { msg with
      metadata :=
        some (metaInsert md MetadataKeyReceipts
          (.vArr (existing ++ receipts.map (fun r => .vObj r.toMap)))) }

/-- `SetPaymentError`: an empty code is a no-op. -/
def SetPaymentError (msg : Message) (errorCode : String) : Message :=
  if errorCode = "" then msg
  else
    { msg with
      metadata :=
        some (metaInsert (msg.metadata.getD []) MetadataKeyError
          (.vStr errorCode)) }

/-- `SetOriginalPrompt`: an empty prompt is a no-op. -/
def SetOriginalPrompt (msg : Message) (prompt : String) : Message :=
  if prompt = "" then msg
  else
    { msg with
      metadata :=
        some (metaInsert (msg.metadata.getD []) MetadataKeyOriginalPrompt
          (.vStr prompt)) }

/-- `ClearPaymentMetadata`: deletes exactly the payload and required keys;
a nil map is left alone. -/
def ClearPaymentMetadata (msg : Message) : Message :=
  match msg.metadata with
  | none => msg
  | some md =>
    { msg with
      metadata :=
        some (metaErase (metaErase md MetadataKeyPayload) MetadataKeyRequired) }

/-! ## Recording transitions into a task (`core/x402/state/record.go`) -/

/-- `a2a.NewMessage(MessageRoleAgent, TextPart{Text: s})`. -/
def newAgentTextMessage (s : String) : Message :=
  ⟨.agent, "", [.text s], none⟩

/-- Ensure the task has a status message, creating an agent text message
with the (defaulted) text when it is nil. -/
def ensureStatusMessage (task : Task) (defaultText fallback : String) : Task :=
  match task.status.message with
  | some _ => task
  | none =>
    let txt := if defaultText = "" then fallback else defaultText
    { task with status := { task.status with message := some (newAgentTextMessage txt) } }

/-- Replace the task status message through a message-level setter. -/
def mapStatusMessage (task : Task) (f : Message → Message) : Task :=
  match task.status.message with
  | some m => { task with status := { task.status with message := some (f m) } }
  | none => task

/-- `RecordPaymentRequired(task, requirements, defaultText)`. -/
def RecordPaymentRequired (task : Task) (requirements : Option PaymentRequired)
    (defaultText : String) : Task :=
  let task := ensureStatusMessage task defaultText "Payment required"
  let task := mapStatusMessage task (fun m => SetPaymentStatus m PaymentRequiredStatus)
  mapStatusMessage task (fun m => SetPaymentRequirements m requirements)

/-- `RecordPaymentVerified(task, paymentState, defaultText)`. -/
def RecordPaymentVerified (task : Task) (paymentState : PaymentState)
    (defaultText : String) : Task :=
  let task := ensureStatusMessage task defaultText "Payment verified"
  let task := mapStatusMessage task (fun m => SetPaymentStatus m paymentState.status)
  let task := mapStatusMessage task (fun m => SetPaymentPayload m paymentState.payload)
  mapStatusMessage task (fun m => SetPaymentRequirements m paymentState.requirements)

/-- `RecordPaymentCompleted(task, receipts, defaultText)`: ensure the
status message, replace its text parts by the response text, write the
completed status and the receipts, then clear payload/required. -/
def RecordPaymentCompleted (task : Task) (receipts : List SettleResponse)
    (defaultText : String) : Task :=
  let task := ensureStatusMessage task defaultText "Task completed"
  let task :=
    if defaultText = "" then task
    else
      mapStatusMessage task (fun m =>
        { m with
          parts :=
            (m.parts.filter (fun p => match p with
              | .text _ => false
              | .other _ => true)) ++ [.text defaultText] })
  let task := mapStatusMessage task (fun m => SetPaymentStatus m PaymentCompletedStatus)
  let task := mapStatusMessage task (fun m => SetPaymentReceipts m receipts)
  mapStatusMessage task ClearPaymentMetadata

/-- `RecordPaymentFailed(task, errorCode, defaultText)`. -/
def RecordPaymentFailed (task : Task) (errorCode : String)
    (defaultText : String) : Task :=
  let task := ensureStatusMessage task defaultText "Payment failed"
  let task := mapStatusMessage task (fun m => SetPaymentStatus m PaymentFailedStatus)
  mapStatusMessage task (fun m => SetPaymentError m errorCode)

/-! ## Merchant orchestrator (`core/merchant`)

The orchestrator's collaborators (`ResourceServer`, `BusinessService`,
`ExtensionChecker`) are interfaces; an `Env` packages one arbitrary
implementation of each plus the orchestrator configuration. Every call to
a collaborator is recorded in an ordered call trace. Event-queue writes
are modelled as total (the queue is external; its failure modes are not
part of the claims). -/

/-- One external call made by the orchestrator. `verifyCall`/`executeCall`
carry whether the call came back successful (for verification: no error
and `IsValid`; for business execution: no error). -/
inductive CallEv where
  | verifyCall : Bool → CallEv
  | executeCall : Bool → CallEv
  | settleCall : CallEv
  | buildCall : CallEv
  deriving DecidableEq, Repr

/-- A status-update event written to the event queue. -/
structure StatusEvent where
  state : TaskState
  message : Option Message
  final : Bool

/-- Collaborators and configuration of a `BusinessOrchestrator`. -/
structure Env where
  /-- `ExtensionsFrom(ctx)`: `none` models `ok == false`, otherwise the
  set of requested extension URIs (`Requested` is membership). -/
  extensions : Option (List String)
  findMatching : List PaymentRequirements → PaymentPayload → Option PaymentRequirements
  verify : PaymentPayload → PaymentRequirements → Except String VerifyResponse
  settle : PaymentPayload → PaymentRequirements → Except String SettleResponse
  businessExecute : String → Except String String
  serviceRequirements : String → ServiceRequirements
  buildFromConfig : NetworkConfig → ServiceRequirements → Except String (List PaymentRequirements)
  networkConfigs : List NetworkConfig

/-- Model of `a2asrv.RequestContext`. -/
structure RequestContext where
  message : Message
  storedTask : Option Task
  taskID : String
  contextID : String

/-- `findMatchingRequirement`: nil payload, nil/empty requirements, and
no-match are errors; on success the payload and matched requirement are
returned for the follow-up facilitator call. -/
def findMatchingRequirement (env : Env) (ps : PaymentState) :
    Except String (PaymentPayload × PaymentRequirements) :=
  match ps.payload with
  | none => .error "payment payload is required"
  | some pl =>
    match ps.requirements with
    | none => .error "payment requirements are required"
    | some reqs =>
      match reqs.accepts with
      | [] => .error "payment requirements are required"
      | _ =>
        match env.findMatching reqs.accepts pl with
        | none => .error "no matching payment requirement found for payload"
        | some mr => .ok (pl, mr)

/-- `verifyPayment`: match, then call `VerifyPayment`; a call error or an
invalid response is a failure. The second component is the call trace. -/
def verifyPayment (env : Env) (ps : PaymentState) :
    Except String Unit × List CallEv :=
  match findMatchingRequirement env ps with
  | .error e => (.error ("failed to find matching requirement: " ++ e), [])
  | .ok (pl, mr) =>
    match env.verify pl mr with
    | .error e => (.error ("payment verification failed: " ++ e), [.verifyCall false])
    | .ok vr =>
      if vr.isValid then (.ok (), [.verifyCall true])
      else
        (.error ("payment verification failed: " ++ vr.invalidReason ++ ", " ++
          vr.invalidMessage), [.verifyCall false])

/-- `settlePayment`: call `SettlePayment`; a call error or `Success=false`
is a failure. The settle call itself always happens first. -/
def settlePayment (env : Env) (pl : PaymentPayload) (mr : PaymentRequirements) :
    Except String SettleResponse :=
  match env.settle pl mr with
  | .error e => .error ("payment settlement failed: " ++ e)
  | .ok sr =>
    if sr.success then .ok sr
    else .error ("payment settlement failed: " ++ sr.errorReason)

/-- `transitionToFailed` on a non-nil task: set the failed state, record
the failure metadata, emit a final failed event. -/
def transitionToFailedT (task : Task) (errText errorCode : String) :
    Task × StatusEvent :=
  let task := { task with status := { task.status with state := .failed } }
  let task := RecordPaymentFailed task errorCode errText
  (task, ⟨.failed, task.status.message, true⟩)

/-- `transitionToCompleted`: record receipts and response text, set the
completed state, emit a final completed event. -/
def transitionToCompletedT (task : Task) (result : PaymentState) :
    Task × StatusEvent :=
  let responseText := if result.message = "" then "Task completed" else result.message
  let task := RecordPaymentCompleted task result.receipts responseText
  let task := { task with status := { task.status with state := .completed } }
  (task, ⟨.completed, task.status.message, true⟩)

/-- `transitionToPaymentRequired`: set input-required, record the quote,
preserve the original prompt, emit a final input-required event. -/
def transitionToPaymentRequiredT (rcMessage : Message) (task : Task)
    (paymentState : PaymentState) : Task × StatusEvent :=
  let task := { task with status := { task.status with state := .inputRequired } }
  let task := RecordPaymentRequired task paymentState.requirements "Payment required"
  let originalPrompt := ExtractMessageText (some rcMessage)
  let task :=
    if originalPrompt = "" then task
    else mapStatusMessage task (fun m => SetOriginalPrompt m originalPrompt)
  (task, ⟨.inputRequired, task.status.message, true⟩)

/-- `transitionToPaymentVerified`: record the verified state into the task
status message and emit a non-final event at the current task state. -/
def transitionToPaymentVerifiedT (task : Task) (paymentState : PaymentState) :
    Task × StatusEvent :=
  let task := RecordPaymentVerified task paymentState "Payment verified"
  (task, ⟨task.status.state, task.status.message, false⟩)

/-- Output of `handlePaymentSubmitted`: the new payment state pointer
(nil on the failure path), the returned error (nil unless re-extraction
failed, since queue writes are modelled total), the updated task, and the
emitted events and calls. -/
structure HandlerOut where
  ps : Option PaymentState
  err : Option String
  task : Task
  events : List StatusEvent
  calls : List CallEv

/-- `handlePaymentSubmitted`: short-circuit on a terminal task state by
re-extracting; otherwise verify, transitioning to failed on a bad
verification and to payment-verified on success. -/
def handlePaymentSubmitted (env : Env) (rcMessage : Message) (task : Task)
    (ps : PaymentState) : HandlerOut :=
  if task.status.state = .failed ∨ task.status.state = .completed then
    match ExtractPaymentState (some task) (some rcMessage) with
    | .error e => ⟨none, some ("failed to re-extract payment state: " ++ e), task, [], []⟩
    | .ok s => ⟨some s, none, task, [], []⟩
  else
    match verifyPayment env ps with
    | (.error e, calls) =>
      let (task, ev) := transitionToFailedT task
        ("payment verification failed: " ++ e) "payment_verification_failed"
      ⟨none, none, task, [ev], calls⟩
    | (.ok _, calls) =>
      let ps := { ps with status := PaymentVerifiedStatus }
      let (task, ev) := transitionToPaymentVerifiedT task ps
      ⟨some ⟨PaymentVerifiedStatus, "", ps.requirements, ps.payload, ps.receipts⟩,
        none, task, [ev], calls⟩

/-- `handlePaymentVerified`: match, recover the original prompt (required),
run the business service, then settle; success yields the completed state
carrying the business message and the settlement receipt. -/
def handlePaymentVerified (env : Env) (task : Task) (ps : PaymentState) :
    Except String PaymentState × List CallEv :=
  match findMatchingRequirement env ps with
  | .error e => (.error e, [])
  | .ok (pl, mr) =>
    let prompt := ExtractOriginalPrompt (some task)
    if prompt = "" then
      (.error "prompt is required: original prompt not found in task metadata", [])
    else
      match env.businessExecute prompt with
      | .error e => (.error ("business logic execution failed: " ++ e), [.executeCall false])
      | .ok businessMessage =>
        match settlePayment env pl mr with
        | .error e => (.error e, [.executeCall true, .settleCall])
        | .ok sr =>
          (.ok ⟨PaymentCompletedStatus, businessMessage, none, none, [sr]⟩,
            [.executeCall true, .settleCall])

/-- `buildPaymentRequirements`: one `BuildPaymentRequirements` call per
configured network (empty result lists are errors), aggregated into a
version-2 `PaymentRequired` envelope. A2A extra fields are attached to
each requirement as in `AddA2AFieldsToExtra` (outputSchema is nil). -/
def addA2AFields (sreq : ServiceRequirements) (r : PaymentRequirements) :
    PaymentRequirements :=
  let e := r.extra
  let e := if sreq.resource = "" then e else metaInsert e "resource" (.vStr sreq.resource)
  let e := if sreq.description = "" then e else metaInsert e "description" (.vStr sreq.description)
  let e := if sreq.mimeType = "" then e else metaInsert e "mimeType" (.vStr sreq.mimeType)
  { r with extra := e }

/-- The per-network aggregation loop of `buildPaymentRequirements`. -/
def buildReqsLoop (env : Env) (sreq : ServiceRequirements) :
    List NetworkConfig → Except String (List PaymentRequirements) × List CallEv
  | [] => (.ok [], [])
  | cfg :: rest =>
    match env.buildFromConfig cfg sreq with
    | .error e =>
      (.error ("failed to create payment requirement for network " ++
        cfg.networkName ++ ": " ++ e), [.buildCall])
    | .ok [] =>
      (.error ("failed to create payment requirement for network " ++
        cfg.networkName ++ ": no payment requirements returned"), [.buildCall])
    | .ok reqs =>
      match buildReqsLoop env sreq rest with
      | (.error e, calls) => (.error e, .buildCall :: calls)
      | (.ok more, calls) =>
        (.ok (reqs.map (addA2AFields sreq) ++ more), .buildCall :: calls)

/-- `BusinessOrchestrator.buildPaymentRequirements`. -/
def buildPaymentRequirementsO (env : Env) (prompt : String) :
    Except String PaymentState × List CallEv :=
  let sreq := env.serviceRequirements prompt
  match buildReqsLoop env sreq env.networkConfigs with
  | (.error e, calls) => (.error e, calls)
  | (.ok allReqs, calls) =>
    (.ok ⟨PaymentRequiredStatus, "", some ⟨2, allReqs⟩, none, []⟩, calls)

/-- How one `Execute` invocation ended. `nilPanic` models a Go nil-pointer
dereference; `outOfFuel` is the artefact of the fueled loop, proven
unreachable for fuel at least 3. -/
inductive ExecOutcome where
  | ok
  | errMsg : String → ExecOutcome
  | nilPanic
  | outOfFuel
  deriving DecidableEq, Repr

/-- Result of one orchestrator invocation: outcome, final task pointer,
events written to the queue, and the trace of collaborator calls. -/
structure ExecResult where
  outcome : ExecOutcome
  task : Option Task
  events : List StatusEvent
  calls : List CallEv

/-- `a2a.NewSubmittedTask(requestContext, message)`. -/
def NewSubmittedTask (rc : RequestContext) : Task :=
  ⟨rc.taskID, rc.contextID, ⟨.submitted, some rc.message⟩⟩

/-- Outcome of `ensureExtension`: pass, fail with the updated task and the
failure event, or panic on a nil task pointer inside `transitionToFailed`. -/
inductive ExtCheck where
  | passed
  | failedCheck : Task → StatusEvent → String → ExtCheck
  | panicNil

/-- The error text of both extension failures. -/
def extensionErrText : String :=
  "x402 extension is required but not active. Client must send X-A2A-Extensions header with value: " ++
    X402ExtensionURI

/-- `ensureExtension`: missing header context fails with
`extension_missing`, an unrequested URI with `extension_not_requested`;
either failure transitions the task (nil task: panic). -/
def ensureExtension (env : Env) (task : Option Task) : ExtCheck :=
  match env.extensions with
  | none =>
    match task with
    | none => .panicNil
    | some t =>
      let (t, ev) := transitionToFailedT t extensionErrText "extension_missing"
      .failedCheck t ev extensionErrText
  | some exts =>
    if X402ExtensionURI ∈ exts then .passed
    else
      match task with
      | none => .panicNil
      | some t =>
        let (t, ev) := transitionToFailedT t extensionErrText "extension_not_requested"
        .failedCheck t ev extensionErrText

/-- The `for` loop of `BusinessOrchestrator.Execute`, with explicit fuel.
The task pointer and the payment-state pointer stay `Option`s because the
Go code can reach this loop with either nil (dereferencing nil panics). -/
def loopGo (env : Env) (msg : Message) :
    Nat → Option Task → Option PaymentState → List StatusEvent → List CallEv →
    ExecResult
  | 0, task?, _, events, calls => ⟨.outOfFuel, task?, events, calls⟩
  | Nat.succ fuel, task?, ps?, events, calls =>
    match task? with
    | none => ⟨.nilPanic, none, events, calls⟩
    | some task =>
      if task.status.state = .failed then ⟨.ok, some task, events, calls⟩
      else if task.status.state = .completed then ⟨.ok, some task, events, calls⟩
      else
        match ps? with
        | none => ⟨.nilPanic, some task, events, calls⟩
        | some ps =>
          if ps.status = PaymentRequiredStatus then
            match ps.payload with
            | some _ =>
              let ps := { ps with status := PaymentSubmittedStatus }
              let h := handlePaymentSubmitted env msg task ps
              match h.err with
              | some e => ⟨.errMsg e, some h.task, events ++ h.events, calls ++ h.calls⟩
              | none => loopGo env msg fuel (some h.task) h.ps (events ++ h.events) (calls ++ h.calls)
            | none => ⟨.ok, some task, events, calls⟩
          else if ps.status = PaymentSubmittedStatus then
            let h := handlePaymentSubmitted env msg task ps
            match h.err with
            | some e => ⟨.errMsg e, some h.task, events ++ h.events, calls ++ h.calls⟩
            | none => loopGo env msg fuel (some h.task) h.ps (events ++ h.events) (calls ++ h.calls)
          else if ps.status = PaymentVerifiedStatus then
            match handlePaymentVerified env task ps with
            | (.error e, hcalls) =>
              let (task, ev) := transitionToFailedT task
                ("business execution failed: " ++ e) "business_execution_failed"
              ⟨.ok, some task, events ++ [ev], calls ++ hcalls⟩
            | (.ok ps', hcalls) =>
              loopGo env msg fuel (some task) (some ps') events (calls ++ hcalls)
          else if ps.status = PaymentCompletedStatus then
            let (task, ev) := transitionToCompletedT task ps
            ⟨.ok, some task, events ++ [ev], calls⟩
          else
            let prompt := ExtractMessageText (some msg)
            match buildPaymentRequirementsO env prompt with
            | (.error e, bcalls) =>
              let (task, ev) := transitionToFailedT task
                ("failed to create payment requirements: " ++ e)
                "payment_requirements_creation_failed"
              ⟨.ok, some task, events ++ [ev], calls ++ bcalls⟩
            | (.ok ps', bcalls) =>
              let (task, ev) := transitionToPaymentRequiredT msg task ps'
              ⟨.ok, some task, events ++ [ev], calls ++ bcalls⟩

/-- The task-creation precondition of `Execute`: keep the stored task;
with no stored task and no task id, create a submitted task (emitting a
non-final submitted event); otherwise the task pointer stays nil. -/
def entryTaskEvents (rc : RequestContext) : Option Task × List StatusEvent :=
  match rc.storedTask with
  | some t => (some t, ([] : List StatusEvent))
  | none =>
    if rc.message.taskID = "" then
      (some (NewSubmittedTask rc), [(⟨.submitted, none, false⟩ : StatusEvent)])
    else
      (none, ([] : List StatusEvent))

/-- The task pointer `Execute` works with after its creation precondition. -/
def entryTask (rc : RequestContext) : Option Task :=
  (entryTaskEvents rc).1

/-- `BusinessOrchestrator.Execute` with explicit loop fuel: create the
task when there is neither a stored task nor a task id, check the
extension, extract the payment state, then run the state loop. -/
def ExecuteFuel (fuel : Nat) (env : Env) (rc : RequestContext) : ExecResult :=
  let msg := rc.message
  let (task?, events0) := entryTaskEvents rc
  match ensureExtension env task? with
  | .panicNil => ⟨.nilPanic, task?, events0, []⟩
  | .failedCheck task ev e => ⟨.errMsg e, some task, events0 ++ [ev], []⟩
  | .passed =>
    match ExtractPaymentState task? (some msg) with
    | .error e =>
      match task? with
      | none => ⟨.nilPanic, none, events0, []⟩
      | some task =>
        let (task, ev) := transitionToFailedT task
          ("failed to extract payment state: " ++ e) "state_extraction_failed"
        ⟨.ok, some task, events0 ++ [ev], []⟩
    | .ok ps => loopGo env msg fuel task? (some ps) events0 []

/-- `BusinessOrchestrator.Execute` (fuel 5 is ample, see the fuel
invariance theorem). -/
def ExecuteO (env : Env) (rc : RequestContext) : ExecResult :=
  ExecuteFuel 5 env rc

/-! ## Observation helpers for the theorems -/

/-- Is this value a JSON object? -/
def Value.isObjV : Value → Bool
  | .vObj _ => true
  | _ => false

/-- Is this value a JSON array? -/
def Value.isArrV : Value → Bool
  | .vArr _ => true
  | _ => false

/-- Metadata lookup through a task's status message. -/
def taskMetaLookup (t : Task) (k : String) : Option Value :=
  match t.status.message with
  | some m => msgMetaLookup m k
  | none => none

/-- Task state of the final task pointer of a run. -/
def resultTaskState (r : ExecResult) : Option TaskState :=
  r.task.map (fun t => t.status.state)

/-- Metadata lookup through the final task of a run. -/
def resultTaskMetaLookup (r : ExecResult) (k : String) : Option Value :=
  match r.task with
  | some t => taskMetaLookup t k
  | none => none

/-- The verify/execute/settle calls of a trace (build calls dropped). -/
def isVES : CallEv → Bool
  | .buildCall => false
  | _ => true

def vesCalls (l : List CallEv) : List CallEv :=
  l.filter isVES

/-- The verify/execute/settle traces a single orchestrator run can emit:
verification strictly precedes business execution, which strictly
precedes settlement; execution happens only after a valid verification
(or, per the amendment, in a run that entered already verified);
settlement happens only after a successful execution. -/
def vesTraceAllowed (l : List CallEv) : Prop :=
  l = [] ∨ l = [.verifyCall false] ∨ l = [.verifyCall true] ∨
  l = [.verifyCall true, .executeCall false] ∨
  l = [.verifyCall true, .executeCall true, .settleCall] ∨
  l = [.executeCall false] ∨ l = [.executeCall true, .settleCall]

instance (l : List CallEv) : Decidable (vesTraceAllowed l) := by
  unfold vesTraceAllowed
  infer_instance

/-- Does the trace start with a business-execution call? -/
def startsWithExec : List CallEv → Bool
  | .executeCall _ :: _ => true
  | _ => false

/-! ## Concrete instances used by counterexamples and witnesses -/

/-- An environment whose collaborators all succeed on one fixed
requirement/payload pair. -/
def reqA : PaymentRequirements := ⟨"exact", "eip155:84532", "usdc", "0xabc", "1.0", 60, []⟩

def payloadA : PaymentPayload := ⟨2, reqA, .vObj [("signature", .vStr "sig")]⟩

def settleA : SettleResponse := ⟨true, "eip155:84532", "0xtx", "0xpayer", ""⟩

def envHappy : Env :=
  { extensions := some [X402ExtensionURI]
    findMatching := fun accepts _ => accepts.head?
    verify := fun _ _ => .ok ⟨true, "", ""⟩
    settle := fun _ _ => .ok settleA
    businessExecute := fun p => .ok ("done: " ++ p)
    serviceRequirements := fun _ => ⟨"1.0", "res", "desc", "image/png", "exact", 60⟩
    buildFromConfig := fun _ _ => .ok [reqA]
    networkConfigs := [⟨"eip155:84532", "0xabc"⟩] }

/-- A message carrying no metadata. -/
def plainUserMessage (taskID : String) : Message :=
  ⟨.user, taskID, [.text "hello"], none⟩

/-- A task whose status-message metadata is exactly the given bag. -/
def taskWithMeta (st : TaskState) (md : Meta) : Task :=
  ⟨"t1", "c1", ⟨st, some ⟨.agent, "", [.text "m"], some md⟩⟩⟩

/-- C3 counterexample input: a non-terminal stored task whose metadata
already claims `payment-completed` but carries no receipts. -/
def completedNoReceiptsTask : Task :=
  taskWithMeta .working [(MetadataKeyStatus, .vStr PaymentCompletedStatus)]

def rcCompletedNoReceipts : RequestContext :=
  ⟨plainUserMessage "t1", some completedNoReceiptsTask, "t1", "c1"⟩

/-- C5/C6 counterexample inputs. -/
def statusBogusTask : Task :=
  taskWithMeta .working [(MetadataKeyStatus, .vStr "bogus")]

/-- A live message carrying an arbitrary (invalid) status string. -/
def statusMsgZzz : Message :=
  ⟨.user, "", [], some [(MetadataKeyStatus, .vStr "zzz")]⟩

/-- A task with a status message but no payment metadata keys. -/
def emptyMetaTask : Task := taskWithMeta .working []

/-- A task whose required key holds a string instead of a map. -/
def requiredNonMapTask : Task :=
  taskWithMeta .working [(MetadataKeyRequired, .vStr "oops")]

/-- A message whose payload key holds a number instead of a map. -/
def payloadNonMapMsg : Message :=
  ⟨.user, "", [], some [(MetadataKeyPayload, .vNat 7)]⟩

/-- C7 witness inputs: the same keys on both the live message and the
task, with different values. -/
def bothKeysMsg : Message :=
  ⟨.user, "", [],
   some [(MetadataKeyStatus, .vStr PaymentSubmittedStatus),
         (MetadataKeyPayload, .vObj payloadA.toMap)]⟩

def payloadB : PaymentPayload := ⟨2, reqA, .vObj [("signature", .vStr "old")]⟩

def bothKeysTask : Task :=
  taskWithMeta .working
    [(MetadataKeyStatus, .vStr PaymentRequiredStatus),
     (MetadataKeyPayload, .vObj payloadB.toMap),
     (MetadataKeyReceipts, .vArr [.vObj settleA.toMap])]

def statusNonStringTask : Task :=
  taskWithMeta .working [(MetadataKeyStatus, .vNat 3)]

def receiptsNonArrayTask : Task :=
  taskWithMeta .working [(MetadataKeyReceipts, .vStr "oops")]

/-- C9 counterexample inputs: a message already holding one receipt. -/
def receiptR0 : SettleResponse := ⟨true, "n0", "tx0", "p0", ""⟩

def receiptR1 : SettleResponse := ⟨true, "n1", "tx1", "p1", ""⟩

def msgWithOneReceipt : Message :=
  ⟨.agent, "", [], some [(MetadataKeyReceipts, .vArr [.vObj receiptR0.toMap])]⟩

/-- A task carrying the given status message. -/
def taskCarrying (m : Message) : Task :=
  ⟨"t1", "c1", ⟨.working, some m⟩⟩

/-- C1 counterexample input: a stored task whose metadata says
`payment-verified` with a matchable payload, requirement and original
prompt, so a fresh run settles without any in-run verification. -/
def verifiedEntryTask : Task :=
  taskWithMeta .working
    [(MetadataKeyStatus, .vStr PaymentVerifiedStatus),
     (MetadataKeyPayload, .vObj payloadA.toMap),
     (MetadataKeyRequired, .vObj (PaymentRequired.mk 2 [reqA]).toMap),
     (MetadataKeyOriginalPrompt, .vStr "make art")]

def rcVerifiedEntry : RequestContext :=
  ⟨plainUserMessage "t1", some verifiedEntryTask, "t1", "c1"⟩

/-- C8 witness input: verified metadata but no original prompt. -/
def verifiedNoPromptTask : Task :=
  taskWithMeta .working
    [(MetadataKeyStatus, .vStr PaymentVerifiedStatus),
     (MetadataKeyPayload, .vObj payloadA.toMap),
     (MetadataKeyRequired, .vObj (PaymentRequired.mk 2 [reqA]).toMap)]

def rcVerifiedNoPrompt : RequestContext :=
  ⟨plainUserMessage "t1", some verifiedNoPromptTask, "t1", "c1"⟩

/-- C2 witness input: an already-completed stored task receiving a
payment submission again. -/
def completedTerminalTask : Task :=
  taskWithMeta .completed
    [(MetadataKeyStatus, .vStr PaymentCompletedStatus),
     (MetadataKeyReceipts, .vArr [.vObj settleA.toMap])]

def rcResubmitted : RequestContext :=
  ⟨⟨.user, "t1", [.text "Payment authorization provided"],
    some [(MetadataKeyStatus, .vStr PaymentSubmittedStatus),
          (MetadataKeyPayload, .vObj payloadA.toMap)]⟩,
   some completedTerminalTask, "t1", "c1"⟩

/-- C10 witness input: no stored task but a task id on the message. -/
def rcNilStored : RequestContext :=
  ⟨plainUserMessage "t1", none, "t1", "c1"⟩

/-! ## Helper lemmas -/

theorem metaLookup_insert_self (m : Meta) (k : String) (v : Value) :
    metaLookup (metaInsert m k v) k = some v := by
  induction m with
  | nil => simp [metaInsert, metaLookup]
  | cons hd tl ih =>
    obtain ⟨k', w⟩ := hd
    by_cases h : k' = k
    · simp [metaInsert, metaLookup, h]
    · simp [metaInsert, metaLookup, h, ih]

theorem metaLookup_insert_other (m : Meta) (k k' : String) (v : Value)
    (hne : k ≠ k') : metaLookup (metaInsert m k v) k' = metaLookup m k' := by
  induction m with
  | nil => simp [metaInsert, metaLookup, hne]
  | cons hd tl ih =>
    obtain ⟨k0, w⟩ := hd
    by_cases h : k0 = k
    · subst h
      simp [metaInsert, metaLookup, hne]
    · simp [metaInsert, metaLookup, h, ih]

theorem metaLookup_erase_self (m : Meta) (k : String) :
    metaLookup (metaErase m k) k = none := by
  induction m with
  | nil => simp [metaErase, metaLookup]
  | cons hd tl ih =>
    obtain ⟨k0, w⟩ := hd
    by_cases h : k0 = k
    · simp [metaErase, h, ih]
    · simp [metaErase, metaLookup, h, ih]

theorem metaLookup_erase_other (m : Meta) (k k' : String) (hne : k ≠ k') :
    metaLookup (metaErase m k) k' = metaLookup m k' := by
  induction m with
  | nil => simp [metaErase]
  | cons hd tl ih =>
    obtain ⟨k0, w⟩ := hd
    by_cases h : k0 = k
    · subst h
      simp [metaErase, metaLookup, hne, ih]
    · simp [metaErase, metaLookup, h, ih]

theorem requirementsFromMap_toMap (r : PaymentRequirements) :
    PaymentRequirements.fromMap r.toMap = some r := by
  cases r
  rfl

theorem decodeReqList_map_toMap (rs : List PaymentRequirements) :
    decodeReqList (rs.map (fun r => .vObj r.toMap)) = some rs := by
  induction rs with
  | nil => rfl
  | cons hd tl ih =>
    simp [decodeReqList, requirementsFromMap_toMap, ih]

theorem requiredFromMap_toMap (pr : PaymentRequired) :
    PaymentRequired.fromMap pr.toMap = some pr := by
  cases pr with
  | mk v accepts =>
    simp [PaymentRequired.toMap, PaymentRequired.fromMap, metaLookup,
      decodeReqList_map_toMap]

theorem payloadFromMap_toMap (p : PaymentPayload) :
    PaymentPayload.fromMap p.toMap = some p := by
  cases p with
  | mk v a pl =>
    simp [PaymentPayload.toMap, PaymentPayload.fromMap, metaLookup,
      requirementsFromMap_toMap]

theorem settleFromMap_toMap (s : SettleResponse) :
    SettleResponse.fromMap s.toMap = some s := by
  cases s
  rfl

theorem decodeReceiptList_map_toMap (rs : List SettleResponse) :
    decodeReceiptList (rs.map (fun r => .vObj r.toMap)) = .ok rs := by
  induction rs with
  | nil => rfl
  | cons hd tl ih =>
    simp [decodeReceiptList, settleFromMap_toMap, ih]

theorem clear_lookup_payload (m : Message) :
    msgMetaLookup (ClearPaymentMetadata m) MetadataKeyPayload = none := by
  cases hmd : m.metadata with
  | none => simp [ClearPaymentMetadata, msgMetaLookup, hmd]
  | some md =>
    simp [ClearPaymentMetadata, msgMetaLookup, hmd]
    rw [metaLookup_erase_other _ _ _ (by decide), metaLookup_erase_self]

theorem clear_lookup_required (m : Message) :
    msgMetaLookup (ClearPaymentMetadata m) MetadataKeyRequired = none := by
  cases hmd : m.metadata with
  | none => simp [ClearPaymentMetadata, msgMetaLookup, hmd]
  | some md =>
    simp [ClearPaymentMetadata, msgMetaLookup, hmd]
    rw [metaLookup_erase_self]

theorem clear_lookup_other (m : Message) (k : String)
    (h1 : k ≠ MetadataKeyPayload) (h2 : k ≠ MetadataKeyRequired) :
    msgMetaLookup (ClearPaymentMetadata m) k = msgMetaLookup m k := by
  cases hmd : m.metadata with
  | none => simp [ClearPaymentMetadata, msgMetaLookup, hmd]
  | some md =>
    simp [ClearPaymentMetadata, msgMetaLookup, hmd]
    rw [metaLookup_erase_other _ _ _ (Ne.symm h2),
      metaLookup_erase_other _ _ _ (Ne.symm h1)]

theorem ensure_message_some (t : Task) (d f : String) :
    ∃ m, (ensureStatusMessage t d f).status.message = some m := by
  cases hm : t.status.message with
  | some m => exact ⟨m, by simp [ensureStatusMessage, hm]⟩
  | none =>
    refine ⟨newAgentTextMessage (if d = "" then f else d), ?_⟩
    simp [ensureStatusMessage, hm]

theorem mapStatusMessage_some (t : Task) (m : Message) (f : Message → Message)
    (h : t.status.message = some m) :
    (mapStatusMessage t f).status.message = some (f m) := by
  simp [mapStatusMessage, h]

/-- The status message of a task after `RecordPaymentCompleted` is the
cleared form of a receipts-written message. -/
theorem record_completed_shape (task : Task) (receipts : List SettleResponse)
    (text : String) :
    ∃ m3, (RecordPaymentCompleted task receipts text).status.message =
      some (ClearPaymentMetadata (SetPaymentReceipts m3 receipts)) := by
  obtain ⟨m1, hm1⟩ := ensure_message_some task text "Task completed"
  by_cases ht : text = ""
  · refine ⟨SetPaymentStatus m1 PaymentCompletedStatus, ?_⟩
    simp only [RecordPaymentCompleted, if_pos ht]
    exact mapStatusMessage_some _ _ _
      (mapStatusMessage_some _ _ _ (mapStatusMessage_some _ _ _ hm1))
  · refine ⟨SetPaymentStatus
      { m1 with
        parts :=
          (m1.parts.filter (fun p => match p with
            | .text _ => false
            | .other _ => true)) ++ [.text text] } PaymentCompletedStatus, ?_⟩
    simp only [RecordPaymentCompleted, if_neg ht]
    exact mapStatusMessage_some _ _ _
      (mapStatusMessage_some _ _ _
        (mapStatusMessage_some _ _ _ (mapStatusMessage_some _ _ _ hm1)))

/-- Writing a non-empty receipts list produces a non-empty receipts
array under the receipts key. -/
theorem setReceipts_lookup_nonempty (m : Message) (r0 : SettleResponse)
    (rest : List SettleResponse) :
    ∃ l, msgMetaLookup (SetPaymentReceipts m (r0 :: rest)) MetadataKeyReceipts =
      some (.vArr l) ∧ l ≠ [] := by
  refine ⟨(match metaLookup (m.metadata.getD []) MetadataKeyReceipts with
      | some (.vArr l) => l
      | _ => []) ++ (r0 :: rest).map (fun r => .vObj r.toMap), ?_, ?_⟩
  · simp [SetPaymentReceipts, msgMetaLookup, metaLookup_insert_self]
  · simp

/-! ## Claim C5 -/

/-- C5 counterexample: `ExtractPaymentStatus` (the extraction used by
`ExtractPaymentState` on the orchestration path) propagates a metadata
status string that is not one of the six defined tokens: on a task whose
status key holds `"bogus"` it returns `"bogus"`, which `IsValid`
rejects. So state extraction is not gated by `PaymentStatus.IsValid`. -/
theorem C5_counterexample :
    ExtractPaymentStatus (some statusBogusTask) none = .ok "bogus" ∧
    PaymentStatus.IsValid "bogus" = false :=
  ⟨rfl, rfl⟩

/-- C5 (amended): only `ExtractPaymentStatusFromTask` gates the wire
string through `PaymentStatus.IsValid` (it never returns an invalid
non-empty status); `ExtractPaymentStatus`, used by `ExtractPaymentState`,
returns the raw metadata string even when it is not a defined token. -/
theorem C5_theorem :
    (∀ (t : Task) (s : PaymentStatus),
        ExtractPaymentStatusFromTask (some t) = .ok s →
        s = "" ∨ PaymentStatus.IsValid s = true) ∧
    (∀ (t : Option Task) (msg : Message) (s : String),
        msgMetaLookup msg MetadataKeyStatus = some (.vStr s) →
        ExtractPaymentStatus t (some msg) = .ok s) := by
  constructor
  · intro t s h
    simp only [ExtractPaymentStatusFromTask] at h
    split at h
    · cases h
      exact Or.inl rfl
    · split at h
      · cases h
        exact Or.inl rfl
      · split at h
        · split at h
          · cases h
            rename_i hvalid
            exact Or.inr hvalid
          · cases h
            exact Or.inl rfl
        · cases h
          exact Or.inl rfl
  · intro t msg s h
    simp only [ExtractPaymentStatus, h]

/-- C5 witness: both halves of the amended claim at concrete inputs. -/
theorem C5_witness :
    (("" : String) = "" ∨ PaymentStatus.IsValid "" = true) ∧
    ExtractPaymentStatus none (some statusMsgZzz) = .ok "zzz" :=
  ⟨C5_theorem.1 statusBogusTask "" rfl, C5_theorem.2 none statusMsgZzz "zzz" rfl⟩

/-- The task-side half of status extraction always succeeds. -/
theorem extractStatusTaskPart_ok (t : Option Task) :
    ∃ s, extractStatusTaskPart t = .ok s := by
  cases t with
  | none => exact ⟨"", rfl⟩
  | some tk =>
    cases hm : tk.status.message with
    | none => exact ⟨"", by simp [extractStatusTaskPart, hm]⟩
    | some tm =>
      cases hl : msgMetaLookup tm MetadataKeyStatus with
      | none => exact ⟨"", by simp [extractStatusTaskPart, hm, hl]⟩
      | some v =>
        cases v with
        | vStr s => exact ⟨s, by simp [extractStatusTaskPart, hm, hl]⟩
        | vNat n => exact ⟨"", by simp [extractStatusTaskPart, hm, hl]⟩
        | vBool b => exact ⟨"", by simp [extractStatusTaskPart, hm, hl]⟩
        | vArr l => exact ⟨"", by simp [extractStatusTaskPart, hm, hl]⟩
        | vObj o => exact ⟨"", by simp [extractStatusTaskPart, hm, hl]⟩

/-! ## Claim C6 -/

/-- C6 counterexample: the claim says every extraction operation returns
an error when its key is present with an unexpected dynamic shape; but a
non-string status value and a non-array receipts value are silently
treated as absent (no error is returned). -/
theorem C6_counterexample :
    ExtractPaymentStatus (some statusNonStringTask) none = .ok "" ∧
    ExtractPaymentReceipts (some receiptsNonArrayTask) = .ok [] :=
  ⟨rfl, rfl⟩

/-- C6 (amended): absent keys give empty values and no error for all four
extractors; a present key of the wrong shape is an error for requirements
and payload (and for non-map receipt list elements), but a non-string
status value and a non-array receipts value are silently treated as
absent (status extraction never errors at all). -/
theorem C6_theorem :
    (∀ (t : Task) (m : Message),
        taskMetaLookup t MetadataKeyStatus = none →
        taskMetaLookup t MetadataKeyRequired = none →
        taskMetaLookup t MetadataKeyPayload = none →
        taskMetaLookup t MetadataKeyReceipts = none →
        msgMetaLookup m MetadataKeyStatus = none →
        msgMetaLookup m MetadataKeyPayload = none →
        ExtractPaymentStatus (some t) (some m) = .ok "" ∧
        ExtractPaymentRequirements (some t) = .ok none ∧
        ExtractPaymentPayload (some t) (some m) = .ok none ∧
        ExtractPaymentReceipts (some t) = .ok []) ∧
    (∀ (t : Task) (v : Value),
        taskMetaLookup t MetadataKeyRequired = some v → Value.isObjV v = false →
        ExtractPaymentRequirements (some t) = .error "payment requirements is not a map") ∧
    (∀ (tk : Option Task) (m : Message) (v : Value),
        msgMetaLookup m MetadataKeyPayload = some v → Value.isObjV v = false →
        ExtractPaymentPayload tk (some m) = .error "payment payload is not a map") ∧
    (∀ (tk : Option Task) (m : Option Message),
        ∃ s, ExtractPaymentStatus tk m = .ok s) ∧
    (∀ (t : Task) (v : Value),
        taskMetaLookup t MetadataKeyReceipts = some v → Value.isArrV v = false →
        ExtractPaymentReceipts (some t) = .ok []) := by
  refine ⟨?_, ?_, ?_, ?_, ?_⟩
  · intro t m h1 h2 h3 h4 h5 h6
    refine ⟨?_, ?_, ?_, ?_⟩
    · simp only [ExtractPaymentStatus, h5, extractStatusTaskPart]
      cases hm : t.status.message with
      | none => rfl
      | some tm =>
        simp only [taskMetaLookup, hm] at h1
        simp [h1]
    · simp only [ExtractPaymentRequirements]
      cases hm : t.status.message with
      | none => rfl
      | some tm =>
        simp only [taskMetaLookup, hm] at h2
        simp [h2]
    · simp only [ExtractPaymentPayload, h6, extractPayloadTaskPart]
      cases hm : t.status.message with
      | none => rfl
      | some tm =>
        simp only [taskMetaLookup, hm] at h3
        simp [h3]
    · simp only [ExtractPaymentReceipts]
      cases hm : t.status.message with
      | none => rfl
      | some tm =>
        simp only [taskMetaLookup, hm] at h4
        simp [h4]
  · intro t v hv hshape
    cases hm : t.status.message with
    | none => simp [taskMetaLookup, hm] at hv
    | some tm =>
      simp only [taskMetaLookup, hm] at hv
      cases v with
      | vObj o => simp [Value.isObjV] at hshape
      | vStr s => simp [ExtractPaymentRequirements, hm, hv]
      | vNat n => simp [ExtractPaymentRequirements, hm, hv]
      | vBool b => simp [ExtractPaymentRequirements, hm, hv]
      | vArr l => simp [ExtractPaymentRequirements, hm, hv]
  · intro tk m v hv hshape
    cases v with
    | vObj o => simp [Value.isObjV] at hshape
    | vStr s => simp [ExtractPaymentPayload, hv, decodePayloadValue]
    | vNat n => simp [ExtractPaymentPayload, hv, decodePayloadValue]
    | vBool b => simp [ExtractPaymentPayload, hv, decodePayloadValue]
    | vArr l => simp [ExtractPaymentPayload, hv, decodePayloadValue]
  · intro tk m
    cases m with
    | none => exact extractStatusTaskPart_ok tk
    | some msg =>
      simp only [ExtractPaymentStatus]
      cases hl : msgMetaLookup msg MetadataKeyStatus with
      | none => exact extractStatusTaskPart_ok tk
      | some v =>
        cases v with
        | vStr s => exact ⟨s, rfl⟩
        | vNat n => exact extractStatusTaskPart_ok tk
        | vBool b => exact extractStatusTaskPart_ok tk
        | vArr l => exact extractStatusTaskPart_ok tk
        | vObj o => exact extractStatusTaskPart_ok tk
  · intro t v hv hshape
    cases hm : t.status.message with
    | none => simp [taskMetaLookup, hm] at hv
    | some tm =>
      simp only [taskMetaLookup, hm] at hv
      cases v with
      | vArr l => simp [Value.isArrV] at hshape
      | vStr s => simp [ExtractPaymentReceipts, hm, hv]
      | vNat n => simp [ExtractPaymentReceipts, hm, hv]
      | vBool b => simp [ExtractPaymentReceipts, hm, hv]
      | vObj o => simp [ExtractPaymentReceipts, hm, hv]

/-- C6 witness: every conjunct of the amendment at a concrete input. -/
theorem C6_witness :
    (ExtractPaymentStatus (some emptyMetaTask) (some (plainUserMessage "")) = .ok "" ∧
      ExtractPaymentRequirements (some emptyMetaTask) = .ok none ∧
      ExtractPaymentPayload (some emptyMetaTask) (some (plainUserMessage "")) = .ok none ∧
      ExtractPaymentReceipts (some emptyMetaTask) = .ok []) ∧
    ExtractPaymentRequirements (some requiredNonMapTask) =
      .error "payment requirements is not a map" ∧
    ExtractPaymentPayload none (some payloadNonMapMsg) =
      .error "payment payload is not a map" ∧
    (∃ s, ExtractPaymentStatus (some statusNonStringTask) none = .ok s) ∧
    ExtractPaymentReceipts (some receiptsNonArrayTask) = .ok [] :=
  ⟨C6_theorem.1 emptyMetaTask (plainUserMessage "") rfl rfl rfl rfl rfl rfl,
   C6_theorem.2.1 requiredNonMapTask (.vStr "oops") rfl rfl,
   C6_theorem.2.2.1 none payloadNonMapMsg (.vNat 7) rfl rfl,
   C6_theorem.2.2.2.1 (some statusNonStringTask) none,
   C6_theorem.2.2.2.2 receiptsNonArrayTask (.vStr "oops") rfl rfl⟩

/-! ## Claim C7 -/

/-- C7: precedence of the live message over the task for status and
payload, and task-only receipts. When the live message carries the status
key as a string, extraction returns it whatever the task carries; when
the live message carries the payload key, the result is fully determined
by that value (the task is never consulted); and the receipts component
of an extracted payment state is exactly the task-only receipts
extraction, so a receipts key on the inbound message is ignored. -/
theorem C7_theorem :
    (∀ (t : Option Task) (m : Message) (s : String),
        msgMetaLookup m MetadataKeyStatus = some (.vStr s) →
        ExtractPaymentStatus t (some m) = .ok s) ∧
    (∀ (t : Option Task) (m : Message) (v : Value),
        msgMetaLookup m MetadataKeyPayload = some v →
        ExtractPaymentPayload t (some m) = decodePayloadValue v) ∧
    (∀ (t : Option Task) (m : Option Message) (ps : PaymentState),
        ExtractPaymentState t m = .ok ps →
        ExtractPaymentReceipts t = .ok ps.receipts) := by
  refine ⟨?_, ?_, ?_⟩
  · intro t m s h
    simp [ExtractPaymentStatus, h]
  · intro t m v h
    simp [ExtractPaymentPayload, h]
  · intro t m ps h
    simp only [ExtractPaymentState] at h
    split at h
    · cases h
    · split at h
      · cases h
      · split at h
        · cases h
        · split at h
          · cases h
          · rename_i receipts hrec
            cases h
            exact hrec

/-- C7 witness: a message and a task that both carry the status and
payload keys (with different values), the task also carrying receipts. -/
theorem C7_witness :
    ExtractPaymentStatus (some bothKeysTask) (some bothKeysMsg) =
      .ok PaymentSubmittedStatus ∧
    ExtractPaymentPayload (some bothKeysTask) (some bothKeysMsg) =
      decodePayloadValue (.vObj payloadA.toMap) ∧
    ExtractPaymentReceipts (some bothKeysTask) =
      .ok (PaymentState.receipts
        ⟨PaymentSubmittedStatus, "", none, some payloadA, [settleA]⟩) :=
  ⟨C7_theorem.1 (some bothKeysTask) bothKeysMsg PaymentSubmittedStatus rfl,
   C7_theorem.2.1 (some bothKeysTask) bothKeysMsg (.vObj payloadA.toMap) rfl,
   C7_theorem.2.2 (some bothKeysTask) (some bothKeysMsg)
     ⟨PaymentSubmittedStatus, "", none, some payloadA, [settleA]⟩ (by rfl)⟩

/-! ## Claim C9 -/

/-- C9 counterexample: the set-then-extract round trip fails for receipts
on a message that already carries a receipts array, because
`SetPaymentReceipts` is additive: setting `[receiptR1]` on a message
holding `[receiptR0]` extracts `[receiptR0, receiptR1]`, not the set
value. -/
theorem C9_counterexample :
    ExtractPaymentReceipts
        (some (taskCarrying (SetPaymentReceipts msgWithOneReceipt [receiptR1]))) =
      .ok [receiptR0, receiptR1] ∧
    [receiptR0, receiptR1] ≠ [receiptR1] := by
  refine ⟨rfl, fun h => ?_⟩
  simpa using congrArg List.length h

/-- C9 (amended): the set-then-extract round trip holds for status,
requirements and payload on every message, and for receipts on every
message not already carrying a receipts key; and `fromMap (toMap v) = v`
holds for every payment type. -/
theorem C9_theorem :
    (∀ (i c : String) (st : TaskState) (m : Message) (s : PaymentStatus),
        ExtractPaymentStatus
          (some ⟨i, c, ⟨st, some (SetPaymentStatus m s)⟩⟩) none = .ok s) ∧
    (∀ (i c : String) (st : TaskState) (m : Message) (r : PaymentRequired),
        ExtractPaymentRequirements
          (some ⟨i, c, ⟨st, some (SetPaymentRequirements m (some r))⟩⟩) =
        .ok (some r)) ∧
    (∀ (t : Option Task) (m : Message) (p : PaymentPayload),
        ExtractPaymentPayload t (some (SetPaymentPayload m (some p))) =
        .ok (some p)) ∧
    (∀ (i c : String) (st : TaskState) (m : Message) (rs : List SettleResponse),
        msgMetaLookup m MetadataKeyReceipts = none →
        ExtractPaymentReceipts
          (some ⟨i, c, ⟨st, some (SetPaymentReceipts m rs)⟩⟩) = .ok rs) ∧
    (∀ r : PaymentRequirements, PaymentRequirements.fromMap r.toMap = some r) ∧
    (∀ pr : PaymentRequired, PaymentRequired.fromMap pr.toMap = some pr) ∧
    (∀ p : PaymentPayload, PaymentPayload.fromMap p.toMap = some p) ∧
    (∀ s : SettleResponse, SettleResponse.fromMap s.toMap = some s) := by
  refine ⟨?_, ?_, ?_, ?_, requirementsFromMap_toMap,
    requiredFromMap_toMap, payloadFromMap_toMap,
    settleFromMap_toMap⟩
  · intro i c st m s
    simp [ExtractPaymentStatus, extractStatusTaskPart, msgMetaLookup,
      SetPaymentStatus, metaLookup_insert_self]
  · intro i c st m r
    simp [ExtractPaymentRequirements, msgMetaLookup, SetPaymentRequirements,
      metaLookup_insert_self, requiredFromMap_toMap]
  · intro t m p
    simp [ExtractPaymentPayload, msgMetaLookup, SetPaymentPayload,
      metaLookup_insert_self, decodePayloadValue, payloadFromMap_toMap]
  · intro i c st m rs hnone
    cases rs with
    | nil =>
      simp only [SetPaymentReceipts]
      simp [ExtractPaymentReceipts, hnone]
    | cons r0 rest =>
      have hex :
          metaLookup (m.metadata.getD []) MetadataKeyReceipts = none := by
        cases hmd : m.metadata with
        | none => simp [metaLookup]
        | some md =>
          simpa [msgMetaLookup, hmd] using hnone
      simp [ExtractPaymentReceipts, msgMetaLookup, SetPaymentReceipts, hex,
        metaLookup_insert_self]
      simpa using decodeReceiptList_map_toMap (r0 :: rest)

/-- C9 witness: the round trip at concrete inputs (set on a plain message
and extract back), plus the codec laws at a concrete value of each
payment type. -/
theorem C9_witness :
    ExtractPaymentStatus
        (some ⟨"t1", "c1", ⟨.working,
          some (SetPaymentStatus (plainUserMessage "") PaymentVerifiedStatus)⟩⟩)
        none = .ok PaymentVerifiedStatus ∧
    ExtractPaymentRequirements
        (some ⟨"t1", "c1", ⟨.working,
          some (SetPaymentRequirements (plainUserMessage "")
            (some ⟨2, [reqA]⟩))⟩⟩) = .ok (some ⟨2, [reqA]⟩) ∧
    ExtractPaymentPayload none
        (some (SetPaymentPayload (plainUserMessage "") (some payloadA))) =
      .ok (some payloadA) ∧
    ExtractPaymentReceipts
        (some ⟨"t1", "c1", ⟨.working,
          some (SetPaymentReceipts (plainUserMessage "") [settleA])⟩⟩) =
      .ok [settleA] ∧
    PaymentRequirements.fromMap reqA.toMap = some reqA ∧
    PaymentRequired.fromMap (PaymentRequired.mk 2 [reqA]).toMap =
      some ⟨2, [reqA]⟩ ∧
    PaymentPayload.fromMap payloadA.toMap = some payloadA ∧
    SettleResponse.fromMap settleA.toMap = some settleA :=
  ⟨C9_theorem.1 "t1" "c1" .working (plainUserMessage "") PaymentVerifiedStatus,
   C9_theorem.2.1 "t1" "c1" .working (plainUserMessage "") ⟨2, [reqA]⟩,
   C9_theorem.2.2.1 none (plainUserMessage "") payloadA,
   C9_theorem.2.2.2.1 "t1" "c1" .working (plainUserMessage "") [settleA] rfl,
   C9_theorem.2.2.2.2.1 reqA,
   C9_theorem.2.2.2.2.2.1 ⟨2, [reqA]⟩,
   C9_theorem.2.2.2.2.2.2.1 payloadA,
   C9_theorem.2.2.2.2.2.2.2 settleA⟩

/-! ## Claim C3 -/

/-- C3 counterexample: a run over a non-terminal stored task whose
metadata already says `payment-completed` but carries no receipts
transitions the task to completed with no receipts key in the terminal
metadata, because `SetPaymentReceipts` with an empty list is a no-op. So
"the receipts key is present and non-empty" fails for this completing
task. -/
theorem C3_counterexample :
    resultTaskState (ExecuteO envHappy rcCompletedNoReceipts) = some .completed ∧
    resultTaskMetaLookup (ExecuteO envHappy rcCompletedNoReceipts)
      MetadataKeyStatus = some (.vStr PaymentCompletedStatus) ∧
    resultTaskMetaLookup (ExecuteO envHappy rcCompletedNoReceipts)
      MetadataKeyReceipts = none :=
  ⟨rfl, rfl, rfl⟩

/-- C3 (amended): after `RecordPaymentCompleted` the payload and required
keys are always absent; the receipts key is present and non-empty
whenever the recorded receipts list is non-empty (which holds on the
settlement path, where the completing state carries exactly the fresh
settle receipt); and `ClearPaymentMetadata` removes exactly the payload
and required keys, leaving every other key unchanged. -/
theorem C3_theorem :
    (∀ (task : Task) (receipts : List SettleResponse) (text : String),
        taskMetaLookup (RecordPaymentCompleted task receipts text)
          MetadataKeyPayload = none ∧
        taskMetaLookup (RecordPaymentCompleted task receipts text)
          MetadataKeyRequired = none) ∧
    (∀ (task : Task) (receipts : List SettleResponse) (text : String),
        receipts ≠ [] →
        ∃ l, taskMetaLookup (RecordPaymentCompleted task receipts text)
            MetadataKeyReceipts = some (.vArr l) ∧ l ≠ []) ∧
    (∀ (m : Message),
        msgMetaLookup (ClearPaymentMetadata m) MetadataKeyPayload = none ∧
        msgMetaLookup (ClearPaymentMetadata m) MetadataKeyRequired = none ∧
        ∀ k, k ≠ MetadataKeyPayload → k ≠ MetadataKeyRequired →
          msgMetaLookup (ClearPaymentMetadata m) k = msgMetaLookup m k) := by
  refine ⟨?_, ?_, ?_⟩
  · intro task receipts text
    obtain ⟨m3, hm3⟩ := record_completed_shape task receipts text
    constructor
    · simp [taskMetaLookup, hm3, clear_lookup_payload]
    · simp [taskMetaLookup, hm3, clear_lookup_required]
  · intro task receipts text hne
    obtain ⟨m3, hm3⟩ := record_completed_shape task receipts text
    cases receipts with
    | nil => exact absurd rfl hne
    | cons r0 rest =>
      obtain ⟨l, hl, hlne⟩ := setReceipts_lookup_nonempty m3 r0 rest
      refine ⟨l, ?_, hlne⟩
      simp only [taskMetaLookup, hm3]
      rw [clear_lookup_other _ MetadataKeyReceipts (by decide) (by decide)]
      exact hl
  · intro m
    exact ⟨clear_lookup_payload m, clear_lookup_required m,
      fun k h1 h2 => clear_lookup_other m k h1 h2⟩

/-- C3 witness: the amendment at a concrete completing task (one
receipt, as produced by the settlement path) and a concrete message
carrying foreign metadata keys. -/
theorem C3_witness :
    (taskMetaLookup (RecordPaymentCompleted bothKeysTask [settleA] "done")
        MetadataKeyPayload = none ∧
      taskMetaLookup (RecordPaymentCompleted bothKeysTask [settleA] "done")
        MetadataKeyRequired = none) ∧
    ([settleA] ≠ ([] : List SettleResponse) ∧
      ∃ l, taskMetaLookup (RecordPaymentCompleted bothKeysTask [settleA] "done")
          MetadataKeyReceipts = some (.vArr l) ∧ l ≠ []) ∧
    (msgMetaLookup (ClearPaymentMetadata bothKeysMsg) MetadataKeyPayload = none ∧
      msgMetaLookup (ClearPaymentMetadata bothKeysMsg) MetadataKeyRequired = none ∧
      msgMetaLookup (ClearPaymentMetadata bothKeysMsg) MetadataKeyStatus =
        msgMetaLookup bothKeysMsg MetadataKeyStatus) :=
  ⟨C3_theorem.1 bothKeysTask [settleA] "done",
   ⟨by simp, C3_theorem.2.1 bothKeysTask [settleA] "done" (by simp)⟩,
   ⟨(C3_theorem.2.2 bothKeysMsg).1, (C3_theorem.2.2 bothKeysMsg).2.1,
    (C3_theorem.2.2 bothKeysMsg).2.2 MetadataKeyStatus (by decide) (by decide)⟩⟩

/-! ## Orchestrator lemmas: one-step unfoldings of the state loop -/

theorem loopGo_none (env : Env) (msg : Message) (fuel : Nat)
    (ps? : Option PaymentState) (ev : List StatusEvent) (acc : List CallEv) :
    loopGo env msg (fuel+1) none ps? ev acc = ⟨.nilPanic, none, ev, acc⟩ := rfl

theorem loopGo_terminal (env : Env) (msg : Message) (fuel : Nat) (task : Task)
    (ps? : Option PaymentState) (ev : List StatusEvent) (acc : List CallEv)
    (h : task.status.state = .failed ∨ task.status.state = .completed) :
    loopGo env msg (fuel+1) (some task) ps? ev acc = ⟨.ok, some task, ev, acc⟩ := by
  cases h with
  | inl h => simp [loopGo, h]
  | inr h =>
    by_cases hf : task.status.state = .failed
    · simp [loopGo, hf]
    · simp [loopGo, hf, h]

theorem loopGo_psNone (env : Env) (msg : Message) (fuel : Nat) (task : Task)
    (ev : List StatusEvent) (acc : List CallEv)
    (h1 : ¬task.status.state = .failed) (h2 : ¬task.status.state = .completed) :
    loopGo env msg (fuel+1) (some task) none ev acc =
      ⟨.nilPanic, some task, ev, acc⟩ := by
  simp [loopGo, h1, h2]

theorem loopGo_required_noPayload (env : Env) (msg : Message) (fuel : Nat)
    (task : Task) (ps : PaymentState) (ev : List StatusEvent) (acc : List CallEv)
    (h1 : ¬task.status.state = .failed) (h2 : ¬task.status.state = .completed)
    (h3 : ps.status = PaymentRequiredStatus) (hp : ps.payload = none) :
    loopGo env msg (fuel+1) (some task) (some ps) ev acc =
      ⟨.ok, some task, ev, acc⟩ := by
  simp [loopGo, h1, h2, h3, hp, PaymentRequiredStatus]

theorem loopGo_required_payload (env : Env) (msg : Message) (fuel : Nat)
    (task : Task) (ps : PaymentState) (p : PaymentPayload)
    (ev : List StatusEvent) (acc : List CallEv)
    (h1 : ¬task.status.state = .failed) (h2 : ¬task.status.state = .completed)
    (h3 : ps.status = PaymentRequiredStatus) (hp : ps.payload = some p)
    (herr : (handlePaymentSubmitted env msg task
      { ps with status := PaymentSubmittedStatus }).err = none) :
    loopGo env msg (fuel+1) (some task) (some ps) ev acc =
      loopGo env msg fuel
        (some (handlePaymentSubmitted env msg task
          { ps with status := PaymentSubmittedStatus }).task)
        (handlePaymentSubmitted env msg task
          { ps with status := PaymentSubmittedStatus }).ps
        (ev ++ (handlePaymentSubmitted env msg task
          { ps with status := PaymentSubmittedStatus }).events)
        (acc ++ (handlePaymentSubmitted env msg task
          { ps with status := PaymentSubmittedStatus }).calls) := by
  rw [hp] at herr
  simp [loopGo, h1, h2, h3, hp, herr, PaymentRequiredStatus]

theorem loopGo_submitted (env : Env) (msg : Message) (fuel : Nat)
    (task : Task) (ps : PaymentState) (ev : List StatusEvent) (acc : List CallEv)
    (h1 : ¬task.status.state = .failed) (h2 : ¬task.status.state = .completed)
    (h3 : ps.status = PaymentSubmittedStatus)
    (herr : (handlePaymentSubmitted env msg task ps).err = none) :
    loopGo env msg (fuel+1) (some task) (some ps) ev acc =
      loopGo env msg fuel
        (some (handlePaymentSubmitted env msg task ps).task)
        (handlePaymentSubmitted env msg task ps).ps
        (ev ++ (handlePaymentSubmitted env msg task ps).events)
        (acc ++ (handlePaymentSubmitted env msg task ps).calls) := by
  simp [loopGo, h1, h2, h3, herr, PaymentRequiredStatus, PaymentSubmittedStatus]

theorem loopGo_verified_err (env : Env) (msg : Message) (fuel : Nat)
    (task : Task) (ps : PaymentState) (e : String) (hc : List CallEv)
    (ev : List StatusEvent) (acc : List CallEv)
    (h1 : ¬task.status.state = .failed) (h2 : ¬task.status.state = .completed)
    (h3 : ps.status = PaymentVerifiedStatus)
    (hh : handlePaymentVerified env task ps = (.error e, hc)) :
    loopGo env msg (fuel+1) (some task) (some ps) ev acc =
      ⟨.ok,
        some (transitionToFailedT task ("business execution failed: " ++ e)
          "business_execution_failed").1,
        ev ++ [(transitionToFailedT task ("business execution failed: " ++ e)
          "business_execution_failed").2],
        acc ++ hc⟩ := by
  simp [loopGo, h1, h2, h3, hh, PaymentRequiredStatus, PaymentSubmittedStatus,
    PaymentVerifiedStatus]

theorem loopGo_verified_ok (env : Env) (msg : Message) (fuel : Nat)
    (task : Task) (ps ps' : PaymentState) (hc : List CallEv)
    (ev : List StatusEvent) (acc : List CallEv)
    (h1 : ¬task.status.state = .failed) (h2 : ¬task.status.state = .completed)
    (h3 : ps.status = PaymentVerifiedStatus)
    (hh : handlePaymentVerified env task ps = (.ok ps', hc)) :
    loopGo env msg (fuel+1) (some task) (some ps) ev acc =
      loopGo env msg fuel (some task) (some ps') ev (acc ++ hc) := by
  simp [loopGo, h1, h2, h3, hh, PaymentRequiredStatus, PaymentSubmittedStatus,
    PaymentVerifiedStatus]

theorem loopGo_completed (env : Env) (msg : Message) (fuel : Nat)
    (task : Task) (ps : PaymentState) (ev : List StatusEvent) (acc : List CallEv)
    (h1 : ¬task.status.state = .failed) (h2 : ¬task.status.state = .completed)
    (h3 : ps.status = PaymentCompletedStatus) :
    loopGo env msg (fuel+1) (some task) (some ps) ev acc =
      ⟨.ok, some (transitionToCompletedT task ps).1,
        ev ++ [(transitionToCompletedT task ps).2], acc⟩ := by
  simp [loopGo, h1, h2, h3, PaymentCompletedStatus, PaymentRequiredStatus,
    PaymentSubmittedStatus, PaymentVerifiedStatus]

theorem loopGo_default (env : Env) (msg : Message) (fuel : Nat)
    (task : Task) (ps : PaymentState) (ev : List StatusEvent) (acc : List CallEv)
    (h1 : ¬task.status.state = .failed) (h2 : ¬task.status.state = .completed)
    (h3 : ¬ps.status = PaymentRequiredStatus)
    (h4 : ¬ps.status = PaymentSubmittedStatus)
    (h5 : ¬ps.status = PaymentVerifiedStatus)
    (h6 : ¬ps.status = PaymentCompletedStatus) :
    loopGo env msg (fuel+1) (some task) (some ps) ev acc =
      match buildPaymentRequirementsO env (ExtractMessageText (some msg)) with
      | (.error e, bcalls) =>
        ⟨.ok,
          some (transitionToFailedT task
            ("failed to create payment requirements: " ++ e)
            "payment_requirements_creation_failed").1,
          ev ++ [(transitionToFailedT task
            ("failed to create payment requirements: " ++ e)
            "payment_requirements_creation_failed").2],
          acc ++ bcalls⟩
      | (.ok ps', bcalls) =>
        ⟨.ok, some (transitionToPaymentRequiredT msg task ps').1,
          ev ++ [(transitionToPaymentRequiredT msg task ps').2],
          acc ++ bcalls⟩ := by
  simp only [loopGo, if_neg h1, if_neg h2, if_neg h3, if_neg h4, if_neg h5,
    if_neg h6]

/-! ## Handler shape lemmas -/

theorem ensure_state (t : Task) (d f : String) :
    (ensureStatusMessage t d f).status.state = t.status.state := by
  cases hm : t.status.message <;> simp [ensureStatusMessage, hm]

theorem mapStatusMessage_state (t : Task) (f : Message → Message) :
    (mapStatusMessage t f).status.state = t.status.state := by
  cases hm : t.status.message <;> simp [mapStatusMessage, hm]

theorem recordFailed_state (t : Task) (c d : String) :
    (RecordPaymentFailed t c d).status.state = t.status.state := by
  simp [RecordPaymentFailed, mapStatusMessage_state, ensure_state]

theorem recordVerified_state (t : Task) (ps : PaymentState) (d : String) :
    (RecordPaymentVerified t ps d).status.state = t.status.state := by
  simp [RecordPaymentVerified, mapStatusMessage_state, ensure_state]

theorem transitionToFailed_state (task : Task) (e c : String) :
    (transitionToFailedT task e c).1.status.state = .failed := by
  simp [transitionToFailedT, recordFailed_state]

theorem transitionToPaymentVerified_state (task : Task) (ps : PaymentState) :
    (transitionToPaymentVerifiedT task ps).1.status.state = task.status.state := by
  simp [transitionToPaymentVerifiedT, recordVerified_state]

/-- The three possible outcomes of `verifyPayment` with their call
traces: no facilitator call (no matching requirement), a failed
verification call, or a valid one. -/
theorem verifyPayment_shape (env : Env) (ps : PaymentState) :
    (∃ e, verifyPayment env ps = (.error e, [])) ∨
    (∃ e, verifyPayment env ps = (.error e, [.verifyCall false])) ∨
    verifyPayment env ps = (.ok (), [.verifyCall true]) := by
  cases hf : findMatchingRequirement env ps with
  | error e =>
    exact Or.inl ⟨"failed to find matching requirement: " ++ e,
      by simp [verifyPayment, hf]⟩
  | ok pm =>
    obtain ⟨pl, mr⟩ := pm
    cases hv : env.verify pl mr with
    | error e =>
      exact Or.inr (Or.inl ⟨"payment verification failed: " ++ e,
        by simp [verifyPayment, hf, hv]⟩)
    | ok vr =>
      by_cases hb : vr.isValid
      · exact Or.inr (Or.inr (by simp [verifyPayment, hf, hv, hb]))
      · exact Or.inr (Or.inl
          ⟨"payment verification failed: " ++ vr.invalidReason ++ ", " ++
            vr.invalidMessage, by simp [verifyPayment, hf, hv, hb]⟩)

/-- Shape of `handlePaymentSubmitted` on a non-terminal task: no Go error
is returned; either verification failed (the task transitions to failed,
the state pointer is nil, at most one failed verify call was made), or it
succeeded (task state preserved, new state is payment-verified, exactly
one valid verify call). -/
theorem handleSubmitted_shape (env : Env) (m : Message) (task : Task)
    (ps : PaymentState)
    (h : ¬(task.status.state = .failed ∨ task.status.state = .completed)) :
    (handlePaymentSubmitted env m task ps).err = none ∧
    (((handlePaymentSubmitted env m task ps).task.status.state = .failed ∧
      (handlePaymentSubmitted env m task ps).ps = none ∧
      ((handlePaymentSubmitted env m task ps).calls = [] ∨
       (handlePaymentSubmitted env m task ps).calls = [.verifyCall false])) ∨
     ((handlePaymentSubmitted env m task ps).task.status.state =
        task.status.state ∧
      (∃ ps', (handlePaymentSubmitted env m task ps).ps = some ps' ∧
        ps'.status = PaymentVerifiedStatus) ∧
      (handlePaymentSubmitted env m task ps).calls = [.verifyCall true])) := by
  rcases verifyPayment_shape env ps with ⟨e, hv⟩ | ⟨e, hv⟩ | hv
  · constructor
    · simp [handlePaymentSubmitted, h, hv]
    · refine Or.inl ⟨?_, ?_, Or.inl ?_⟩ <;>
        simp [handlePaymentSubmitted, h, hv, transitionToFailed_state]
  · constructor
    · simp [handlePaymentSubmitted, h, hv]
    · refine Or.inl ⟨?_, ?_, Or.inr ?_⟩ <;>
        simp [handlePaymentSubmitted, h, hv, transitionToFailed_state]
  · constructor
    · simp [handlePaymentSubmitted, h, hv]
    · refine Or.inr ⟨?_, ⟨⟨PaymentVerifiedStatus, "", ps.requirements,
        ps.payload, ps.receipts⟩, ?_, rfl⟩, ?_⟩ <;>
        simp [handlePaymentSubmitted, h, hv, transitionToPaymentVerified_state]

/-- Shape of `handlePaymentVerified`: failure before the business call
(no calls), failed business execution (one failed execute call, no
settle), settlement attempted after a successful execution (execute
then settle), or full success with a completed state. -/
theorem handleVerified_shape (env : Env) (task : Task) (ps : PaymentState) :
    (∃ e, handlePaymentVerified env task ps = (.error e, [])) ∨
    (∃ e, handlePaymentVerified env task ps = (.error e, [.executeCall false])) ∨
    (∃ e, handlePaymentVerified env task ps =
      (.error e, [.executeCall true, .settleCall])) ∨
    (∃ ps', handlePaymentVerified env task ps =
        (.ok ps', [.executeCall true, .settleCall]) ∧
      ps'.status = PaymentCompletedStatus) := by
  cases hf : findMatchingRequirement env ps with
  | error e => exact Or.inl ⟨e, by simp [handlePaymentVerified, hf]⟩
  | ok pm =>
    obtain ⟨pl, mr⟩ := pm
    by_cases hpr : ExtractOriginalPrompt (some task) = ""
    · exact Or.inl ⟨"prompt is required: original prompt not found in task metadata",
        by simp [handlePaymentVerified, hf, hpr]⟩
    · cases hx : env.businessExecute (ExtractOriginalPrompt (some task)) with
      | error e =>
        exact Or.inr (Or.inl ⟨"business logic execution failed: " ++ e,
          by simp [handlePaymentVerified, hf, hpr, hx]⟩)
      | ok bmsg =>
        cases hs : settlePayment env pl mr with
        | error e =>
          exact Or.inr (Or.inr (Or.inl ⟨e,
            by simp [handlePaymentVerified, hf, hpr, hx, hs]⟩))
        | ok sr =>
          exact Or.inr (Or.inr (Or.inr
            ⟨⟨PaymentCompletedStatus, bmsg, none, none, [sr]⟩,
              by simp [handlePaymentVerified, hf, hpr, hx, hs], rfl⟩))

theorem buildReqsLoop_calls_build (env : Env) (sreq : ServiceRequirements) :
    ∀ cfgs : List NetworkConfig, vesCalls (buildReqsLoop env sreq cfgs).2 = [] := by
  intro cfgs
  induction cfgs with
  | nil => rfl
  | cons cfg rest ih =>
    cases hb : env.buildFromConfig cfg sreq with
    | error e => simp [buildReqsLoop, hb, vesCalls, isVES]
    | ok reqs =>
      cases reqs with
      | nil => simp [buildReqsLoop, hb, vesCalls, isVES]
      | cons r rs =>
        cases hrec : buildReqsLoop env sreq rest with
        | mk res calls =>
          cases res with
          | error e =>
            have := ih
            simp [buildReqsLoop, hb, hrec, vesCalls, isVES] at this ⊢
            exact this
          | ok more =>
            have := ih
            simp [buildReqsLoop, hb, hrec, vesCalls, isVES] at this ⊢
            exact this

theorem buildO_calls_build (env : Env) (prompt : String) :
    vesCalls (buildPaymentRequirementsO env prompt).2 = [] := by
  cases hb : buildReqsLoop env (env.serviceRequirements prompt)
      env.networkConfigs with
  | mk res calls =>
    have h := buildReqsLoop_calls_build env (env.serviceRequirements prompt)
      env.networkConfigs
    rw [hb] at h
    cases res with
    | error e => simpa [buildPaymentRequirementsO, hb] using h
    | ok reqs => simpa [buildPaymentRequirementsO, hb] using h

/-- The state loop is fuel-invariant from fuel 3 upward, and with fuel at
least 3 it never runs out: each iteration either returns or strictly
advances the payment status along submitted, verified, completed. -/
theorem loopGo_ge3 (env : Env) (msg : Message) (j k : Nat) (task? : Option Task)
    (ps? : Option PaymentState) (ev : List StatusEvent) (acc : List CallEv) :
    loopGo env msg (j+3) task? ps? ev acc = loopGo env msg (k+3) task? ps? ev acc ∧
    (loopGo env msg (k+3) task? ps? ev acc).outcome ≠ .outOfFuel := by
  rw [show j+3 = (j+2)+1 from rfl, show k+3 = (k+2)+1 from rfl]
  cases task? with
  | none =>
    rw [loopGo_none, loopGo_none]
    exact ⟨rfl, by simp⟩
  | some task =>
    by_cases hterm : task.status.state = .failed ∨ task.status.state = .completed
    · rw [loopGo_terminal env msg (j+2) task ps? ev acc hterm,
        loopGo_terminal env msg (k+2) task ps? ev acc hterm]
      exact ⟨rfl, by simp⟩
    · have h1 : ¬task.status.state = .failed := fun h => hterm (Or.inl h)
      have h2 : ¬task.status.state = .completed := fun h => hterm (Or.inr h)
      cases ps? with
      | none =>
        rw [loopGo_psNone env msg (j+2) task ev acc h1 h2,
          loopGo_psNone env msg (k+2) task ev acc h1 h2]
        exact ⟨rfl, by simp⟩
      | some ps =>
        by_cases h3 : ps.status = PaymentRequiredStatus
        · cases hp : ps.payload with
          | none =>
            rw [loopGo_required_noPayload env msg (j+2) task ps ev acc h1 h2 h3 hp,
              loopGo_required_noPayload env msg (k+2) task ps ev acc h1 h2 h3 hp]
            exact ⟨rfl, by simp⟩
          | some p =>
            have hsh := handleSubmitted_shape env msg task
              { ps with status := PaymentSubmittedStatus } hterm
            rw [loopGo_required_payload env msg (j+2) task ps p ev acc h1 h2 h3 hp hsh.1,
              loopGo_required_payload env msg (k+2) task ps p ev acc h1 h2 h3 hp hsh.1]
            rcases hsh.2 with ⟨hfail, hpsnone, _⟩ | ⟨hstate, ⟨ps', hps', hst'⟩, _⟩
            · rw [hpsnone, show j+2 = (j+1)+1 from rfl, show k+2 = (k+1)+1 from rfl,
                loopGo_terminal env msg (j+1) _ none _ _ (Or.inl hfail),
                loopGo_terminal env msg (k+1) _ none _ _ (Or.inl hfail)]
              exact ⟨rfl, by simp⟩
            · rw [hps']
              have h1' : ¬(handlePaymentSubmitted env msg task
                  { ps with status := PaymentSubmittedStatus }).task.status.state = .failed := by
                rw [hstate]; exact h1
              have h2' : ¬(handlePaymentSubmitted env msg task
                  { ps with status := PaymentSubmittedStatus }).task.status.state = .completed := by
                rw [hstate]; exact h2
              rw [show j+2 = (j+1)+1 from rfl, show k+2 = (k+1)+1 from rfl]
              rcases handleVerified_shape env (handlePaymentSubmitted env msg task
                  { ps with status := PaymentSubmittedStatus }).task ps' with
                ⟨e, hv⟩ | ⟨e, hv⟩ | ⟨e, hv⟩ | ⟨ps'', hv, hst''⟩
              · rw [loopGo_verified_err env msg (j+1) _ ps' e _ _ _ h1' h2' hst' hv,
                  loopGo_verified_err env msg (k+1) _ ps' e _ _ _ h1' h2' hst' hv]
                exact ⟨rfl, by simp⟩
              · rw [loopGo_verified_err env msg (j+1) _ ps' e _ _ _ h1' h2' hst' hv,
                  loopGo_verified_err env msg (k+1) _ ps' e _ _ _ h1' h2' hst' hv]
                exact ⟨rfl, by simp⟩
              · rw [loopGo_verified_err env msg (j+1) _ ps' e _ _ _ h1' h2' hst' hv,
                  loopGo_verified_err env msg (k+1) _ ps' e _ _ _ h1' h2' hst' hv]
                exact ⟨rfl, by simp⟩
              · rw [loopGo_verified_ok env msg (j+1) _ ps' ps'' _ _ _ h1' h2' hst' hv,
                  loopGo_verified_ok env msg (k+1) _ ps' ps'' _ _ _ h1' h2' hst' hv,
                  loopGo_completed env msg j _ ps'' _ _ h1' h2' hst'',
                  loopGo_completed env msg k _ ps'' _ _ h1' h2' hst'']
                exact ⟨rfl, by simp⟩
        · by_cases h4 : ps.status = PaymentSubmittedStatus
          · have hsh := handleSubmitted_shape env msg task ps hterm
            rw [loopGo_submitted env msg (j+2) task ps ev acc h1 h2 h4 hsh.1,
              loopGo_submitted env msg (k+2) task ps ev acc h1 h2 h4 hsh.1]
            rcases hsh.2 with ⟨hfail, hpsnone, _⟩ | ⟨hstate, ⟨ps', hps', hst'⟩, _⟩
            · rw [hpsnone, show j+2 = (j+1)+1 from rfl, show k+2 = (k+1)+1 from rfl,
                loopGo_terminal env msg (j+1) _ none _ _ (Or.inl hfail),
                loopGo_terminal env msg (k+1) _ none _ _ (Or.inl hfail)]
              exact ⟨rfl, by simp⟩
            · rw [hps']
              have h1' : ¬(handlePaymentSubmitted env msg task ps).task.status.state = .failed := by
                rw [hstate]; exact h1
              have h2' : ¬(handlePaymentSubmitted env msg task ps).task.status.state = .completed := by
                rw [hstate]; exact h2
              rw [show j+2 = (j+1)+1 from rfl, show k+2 = (k+1)+1 from rfl]
              rcases handleVerified_shape env
                  (handlePaymentSubmitted env msg task ps).task ps' with
                ⟨e, hv⟩ | ⟨e, hv⟩ | ⟨e, hv⟩ | ⟨ps'', hv, hst''⟩
              · rw [loopGo_verified_err env msg (j+1) _ ps' e _ _ _ h1' h2' hst' hv,
                  loopGo_verified_err env msg (k+1) _ ps' e _ _ _ h1' h2' hst' hv]
                exact ⟨rfl, by simp⟩
              · rw [loopGo_verified_err env msg (j+1) _ ps' e _ _ _ h1' h2' hst' hv,
                  loopGo_verified_err env msg (k+1) _ ps' e _ _ _ h1' h2' hst' hv]
                exact ⟨rfl, by simp⟩
              · rw [loopGo_verified_err env msg (j+1) _ ps' e _ _ _ h1' h2' hst' hv,
                  loopGo_verified_err env msg (k+1) _ ps' e _ _ _ h1' h2' hst' hv]
                exact ⟨rfl, by simp⟩
              · rw [loopGo_verified_ok env msg (j+1) _ ps' ps'' _ _ _ h1' h2' hst' hv,
                  loopGo_verified_ok env msg (k+1) _ ps' ps'' _ _ _ h1' h2' hst' hv,
                  loopGo_completed env msg j _ ps'' _ _ h1' h2' hst'',
                  loopGo_completed env msg k _ ps'' _ _ h1' h2' hst'']
                exact ⟨rfl, by simp⟩
          · by_cases h5 : ps.status = PaymentVerifiedStatus
            · rcases handleVerified_shape env task ps with
                ⟨e, hv⟩ | ⟨e, hv⟩ | ⟨e, hv⟩ | ⟨ps'', hv, hst''⟩
              · rw [loopGo_verified_err env msg (j+2) task ps e _ _ _ h1 h2 h5 hv,
                  loopGo_verified_err env msg (k+2) task ps e _ _ _ h1 h2 h5 hv]
                exact ⟨rfl, by simp⟩
              · rw [loopGo_verified_err env msg (j+2) task ps e _ _ _ h1 h2 h5 hv,
                  loopGo_verified_err env msg (k+2) task ps e _ _ _ h1 h2 h5 hv]
                exact ⟨rfl, by simp⟩
              · rw [loopGo_verified_err env msg (j+2) task ps e _ _ _ h1 h2 h5 hv,
                  loopGo_verified_err env msg (k+2) task ps e _ _ _ h1 h2 h5 hv]
                exact ⟨rfl, by simp⟩
              · rw [loopGo_verified_ok env msg (j+2) task ps ps'' _ _ _ h1 h2 h5 hv,
                  loopGo_verified_ok env msg (k+2) task ps ps'' _ _ _ h1 h2 h5 hv,
                  show j+2 = (j+1)+1 from rfl, show k+2 = (k+1)+1 from rfl,
                  loopGo_completed env msg (j+1) task ps'' _ _ h1 h2 hst'',
                  loopGo_completed env msg (k+1) task ps'' _ _ h1 h2 hst'']
                exact ⟨rfl, by simp⟩
            · by_cases h6 : ps.status = PaymentCompletedStatus
              · rw [loopGo_completed env msg (j+2) task ps ev acc h1 h2 h6,
                  loopGo_completed env msg (k+2) task ps ev acc h1 h2 h6]
                exact ⟨rfl, by simp⟩
              · rw [loopGo_default env msg (j+2) task ps ev acc h1 h2 h3 h4 h5 h6,
                  loopGo_default env msg (k+2) task ps ev acc h1 h2 h3 h4 h5 h6]
                cases hb : buildPaymentRequirementsO env
                    (ExtractMessageText (some msg)) with
                | mk res bcalls =>
                  cases res with
                  | error e => exact ⟨rfl, by simp⟩
                  | ok ps' => exact ⟨rfl, by simp⟩

/-- `Execute` is fuel-invariant from fuel 3 upward and never exhausts
that fuel. -/
theorem ExecuteFuel_inv (env : Env) (rc : RequestContext) (j k : Nat) :
    ExecuteFuel (j+3) env rc = ExecuteFuel (k+3) env rc ∧
    (ExecuteFuel (k+3) env rc).outcome ≠ .outOfFuel := by
  cases hE : entryTaskEvents rc with
  | mk t? ev0 =>
    simp only [ExecuteFuel, hE]
    cases hX : ensureExtension env t? with
    | panicNil => exact ⟨rfl, by simp⟩
    | failedCheck t evx e => exact ⟨rfl, by simp⟩
    | passed =>
      cases hP : ExtractPaymentState t? (some rc.message) with
      | error e =>
        cases t? with
        | none => exact ⟨rfl, by simp⟩
        | some task => exact ⟨rfl, by simp⟩
      | ok ps => exact loopGo_ge3 env rc.message j k t? (some ps) ev0 []

/-! ## Claim C4 -/

/-- C4: the orchestrator loop terminates on every input. With any fuel of
at least 3 the run is identical to the fuel-3 run (each iteration either
returns or strictly advances the payment status, so the loop is bounded
by the length of the status chain), and the fuel is never exhausted; the
production entry point `ExecuteO` runs at fuel 5 and coincides with the
fuel-3 run. -/
theorem C4_theorem (env : Env) (rc : RequestContext) (n : Nat) (hn : 3 ≤ n) :
    ExecuteFuel n env rc = ExecuteFuel 3 env rc ∧
    (ExecuteFuel n env rc).outcome ≠ .outOfFuel ∧
    ExecuteO env rc = ExecuteFuel 3 env rc := by
  obtain ⟨k, rfl⟩ : ∃ k, n = k+3 := ⟨n-3, by omega⟩
  have h := ExecuteFuel_inv env rc k 0
  have h5 : ExecuteFuel (2+3) env rc = ExecuteFuel (0+3) env rc :=
    (ExecuteFuel_inv env rc 2 0).1
  have hout : (ExecuteFuel (k+3) env rc).outcome ≠ .outOfFuel := by
    rw [h.1]
    exact (ExecuteFuel_inv env rc 0 0).2
  exact ⟨h.1, hout, h5⟩

/-- C4 witness: fuel invariance at fuel 7 on a concrete run. -/
theorem C4_witness :
    (3:Nat) ≤ 7 ∧
    ExecuteFuel 7 envHappy rcVerifiedEntry = ExecuteFuel 3 envHappy rcVerifiedEntry ∧
    (ExecuteFuel 7 envHappy rcVerifiedEntry).outcome ≠ .outOfFuel ∧
    ExecuteO envHappy rcVerifiedEntry = ExecuteFuel 3 envHappy rcVerifiedEntry :=
  ⟨by decide, (C4_theorem envHappy rcVerifiedEntry 7 (by decide)).1,
   (C4_theorem envHappy rcVerifiedEntry 7 (by decide)).2.1,
   (C4_theorem envHappy rcVerifiedEntry 7 (by decide)).2.2⟩

theorem recordFailed_shape (task : Task) (c d : String) :
    ∃ m1, (RecordPaymentFailed task c d).status.message =
      some (SetPaymentError (SetPaymentStatus m1 PaymentFailedStatus) c) := by
  obtain ⟨m1, hm1⟩ := ensure_message_some task d "Payment failed"
  refine ⟨m1, ?_⟩
  simp only [RecordPaymentFailed]
  exact mapStatusMessage_some _ _ _ (mapStatusMessage_some _ _ _ hm1)

theorem transitionToFailed_errcode (task : Task) (e c : String) (hc : c ≠ "") :
    taskMetaLookup (transitionToFailedT task e c).1 MetadataKeyError =
      some (.vStr c) := by
  simp only [transitionToFailedT]
  obtain ⟨m1, hm1⟩ := recordFailed_shape
    { task with status := { task.status with state := .failed } } c e
  simp only [taskMetaLookup, hm1]
  simp [SetPaymentError, hc, msgMetaLookup, metaLookup_insert_self]

theorem handleVerified_noPrompt (env : Env) (task : Task) (ps : PaymentState)
    (hp : ExtractOriginalPrompt (some task) = "") :
    ∃ e, handlePaymentVerified env task ps = (.error e, []) := by
  cases hf : findMatchingRequirement env ps with
  | error e => exact ⟨e, by simp [handlePaymentVerified, hf]⟩
  | ok pm =>
    obtain ⟨pl, mr⟩ := pm
    exact ⟨"prompt is required: original prompt not found in task metadata",
      by simp [handlePaymentVerified, hf, hp]⟩

/-! ## Claim C10 -/

/-- C10: when there is no stored task but the inbound message carries a
task id, no task is created (the creation precondition requires both to
be absent), and every path of `Execute` then dereferences the nil task
pointer — in the extension-failure transition, in the extraction-failure
transition, or at the top of the state loop — so `Execute` does not
return normally on such inputs. -/
theorem C10_theorem (env : Env) (rc : RequestContext)
    (h1 : rc.storedTask = none) (h2 : rc.message.taskID ≠ "") :
    entryTask rc = none ∧
    (ExecuteO env rc).outcome = .nilPanic ∧
    (ExecuteO env rc).task = none := by
  have hentry : entryTaskEvents rc = (none, []) := by
    simp [entryTaskEvents, h1, h2]
  refine ⟨by simp [entryTask, hentry], ?_⟩
  simp only [ExecuteO, ExecuteFuel, hentry]
  cases hX : ensureExtension env none with
  | panicNil => exact ⟨rfl, rfl⟩
  | failedCheck t evx e =>
    exfalso
    cases hx2 : env.extensions with
    | none => simp [ensureExtension, hx2] at hX
    | some exts =>
      simp only [ensureExtension, hx2] at hX
      split at hX <;> cases hX
  | passed =>
    cases hP : ExtractPaymentState none (some rc.message) with
    | error e => exact ⟨rfl, rfl⟩
    | ok ps => exact ⟨rfl, rfl⟩

/-- C10 witness. -/
theorem C10_witness :
    rcNilStored.storedTask = none ∧ rcNilStored.message.taskID ≠ "" ∧
    entryTask rcNilStored = none ∧
    (ExecuteO envHappy rcNilStored).outcome = .nilPanic ∧
    (ExecuteO envHappy rcNilStored).task = none :=
  ⟨rfl, by decide,
   (C10_theorem envHappy rcNilStored rfl (by decide)).1,
   (C10_theorem envHappy rcNilStored rfl (by decide)).2.1,
   (C10_theorem envHappy rcNilStored rfl (by decide)).2.2⟩

/-! ## Claim C2 -/

/-- C2: a run over an already-terminal stored task makes no verify,
execute or settle call (the state loop returns before dispatching on the
payment status), and `handlePaymentSubmitted` invoked on a terminal task
short-circuits by re-extracting, making no calls; hence a second
identical payment submission against a terminal task causes no second
settlement. -/
theorem C2_theorem (env : Env) (rc : RequestContext) (t : Task)
    (hstored : rc.storedTask = some t)
    (hterm : t.status.state = .failed ∨ t.status.state = .completed) :
    vesCalls (ExecuteO env rc).calls = [] ∧
    (∀ (task : Task) (ps : PaymentState) (m : Message),
      task.status.state = .failed ∨ task.status.state = .completed →
      (handlePaymentSubmitted env m task ps).calls = []) := by
  constructor
  · have hentry : entryTaskEvents rc = (some t, []) := by
      simp [entryTaskEvents, hstored]
    simp only [ExecuteO, ExecuteFuel, hentry]
    cases hX : ensureExtension env (some t) with
    | panicNil => rfl
    | failedCheck t' evx e => rfl
    | passed =>
      cases hP : ExtractPaymentState (some t) (some rc.message) with
      | error e => rfl
      | ok ps =>
        show vesCalls (loopGo env rc.message 5 (some t) (some ps) [] []).calls = []
        rw [show (5:Nat) = 4+1 from rfl, loopGo_terminal env rc.message 4 t
          (some ps) [] [] hterm]
        rfl
  · intro task ps m hterm'
    have hcond : (task.status.state = .failed ∨ task.status.state = .completed) :=
      hterm'
    cases hP : ExtractPaymentState (some task) (some m) with
    | error e => simp [handlePaymentSubmitted, hcond, hP]
    | ok s => simp [handlePaymentSubmitted, hcond, hP]

/-- C2 witness: a second identical payment submission against a completed
task makes no calls. -/
theorem C2_witness :
    rcResubmitted.storedTask = some completedTerminalTask ∧
    (completedTerminalTask.status.state = .failed ∨
      completedTerminalTask.status.state = .completed) ∧
    vesCalls (ExecuteO envHappy rcResubmitted).calls = [] ∧
    (handlePaymentSubmitted envHappy rcResubmitted.message completedTerminalTask
      ⟨PaymentSubmittedStatus, "", some ⟨2, [reqA]⟩, some payloadA, []⟩).calls = [] :=
  ⟨rfl, Or.inr rfl,
   (C2_theorem envHappy rcResubmitted completedTerminalTask rfl (Or.inr rfl)).1,
   (C2_theorem envHappy rcResubmitted completedTerminalTask rfl (Or.inr rfl)).2
     completedTerminalTask
     ⟨PaymentSubmittedStatus, "", some ⟨2, [reqA]⟩, some payloadA, []⟩
     rcResubmitted.message (Or.inr rfl)⟩

/-! ## Claim C8 -/

/-- C8: a run entering at payment-verified whose task metadata carries no
original prompt (an absent key or a non-string value extracts as the
empty string) makes no collaborator calls at all — in particular the
business service is not executed — and the task transitions to failed
with error code `business_execution_failed` in its metadata. -/
theorem C8_theorem (env : Env) (rc : RequestContext) (t : Task)
    (exts : List String) (ps : PaymentState)
    (hstored : rc.storedTask = some t)
    (h1 : ¬t.status.state = .failed) (h2 : ¬t.status.state = .completed)
    (hx : env.extensions = some exts) (hmem : X402ExtensionURI ∈ exts)
    (hP : ExtractPaymentState (some t) (some rc.message) = .ok ps)
    (hst : ps.status = PaymentVerifiedStatus)
    (hpr : ExtractOriginalPrompt (some t) = "") :
    (ExecuteO env rc).calls = [] ∧
    resultTaskState (ExecuteO env rc) = some .failed ∧
    resultTaskMetaLookup (ExecuteO env rc) MetadataKeyError =
      some (.vStr "business_execution_failed") := by
  have hentry : entryTaskEvents rc = (some t, []) := by
    simp [entryTaskEvents, hstored]
  have hX : ensureExtension env (some t) = .passed := by
    simp [ensureExtension, hx, hmem]
  obtain ⟨e, hv⟩ := handleVerified_noPrompt env t ps hpr
  have hrun : ExecuteO env rc = loopGo env rc.message 5 (some t) (some ps) [] [] := by
    simp only [ExecuteO, ExecuteFuel, hentry, hX, hP]
  rw [hrun, show (5:Nat) = 4+1 from rfl,
    loopGo_verified_err env rc.message 4 t ps e [] [] [] h1 h2 hst hv]
  refine ⟨rfl, ?_, ?_⟩
  · simp [resultTaskState, transitionToFailed_state]
  · simp only [resultTaskMetaLookup]
    exact transitionToFailed_errcode _ _ _ (by decide)

/-! ## Claim C1 -/

/-- C1 counterexample: a run entering with stored metadata already at
payment-verified reaches settlement (a settle call occurs) although no
VerifyPayment call completes in that run at all — the claimed strict
order "verify completes valid, then execute, then settle" fails for this
run because the inner verification step is skipped entirely. -/
theorem C1_counterexample :
    (ExecuteO envHappy rcVerifiedEntry).calls =
      [.executeCall true, .settleCall] ∧
    CallEv.settleCall ∈ (ExecuteO envHappy rcVerifiedEntry).calls ∧
    CallEv.verifyCall true ∉ (ExecuteO envHappy rcVerifiedEntry).calls ∧
    CallEv.verifyCall false ∉ (ExecuteO envHappy rcVerifiedEntry).calls := by
  refine ⟨rfl, ?_, ?_, ?_⟩ <;> decide

/-- C1 (amended): in every run the verify/execute/settle call trace is one
of the ordered prefixes `[]`, `[verify(fail)]`, `[verify(ok)]`,
`[verify(ok), execute(fail)]`, `[verify(ok), execute(ok), settle]`,
`[execute(fail)]`, `[execute(ok), settle]` — so a verify call always
precedes any execute call made in the same run, an execute call precedes
any settle call, settlement happens only after a successful execution,
and execution happens only after a valid in-run verification — except
that a run whose extracted entry state is already payment-verified
executes (and settles) without an in-run verify call. -/
theorem C1_theorem (env : Env) (rc : RequestContext) :
    vesTraceAllowed (vesCalls (ExecuteO env rc).calls) ∧
    (startsWithExec (vesCalls (ExecuteO env rc).calls) = true →
      ∃ ps, ExtractPaymentState (entryTask rc) (some rc.message) = .ok ps ∧
        ps.status = PaymentVerifiedStatus) := by
  cases hE : entryTaskEvents rc with
  | mk t? ev0 =>
    have hTask : entryTask rc = t? := by simp [entryTask, hE]
    rw [hTask]
    cases hX : ensureExtension env t? with
    | panicNil =>
      have hrun : ExecuteO env rc = ⟨.nilPanic, t?, ev0, []⟩ := by
        simp only [ExecuteO, ExecuteFuel, hE, hX]
      rw [hrun]
      exact ⟨Or.inl rfl, fun h => by simp [vesCalls, startsWithExec] at h⟩
    | failedCheck t' evx e =>
      have hrun : ExecuteO env rc = ⟨.errMsg e, some t', ev0 ++ [evx], []⟩ := by
        simp only [ExecuteO, ExecuteFuel, hE, hX]
      rw [hrun]
      exact ⟨Or.inl rfl, fun h => by simp [vesCalls, startsWithExec] at h⟩
    | passed =>
      cases hP : ExtractPaymentState t? (some rc.message) with
      | error e =>
        cases t? with
        | none =>
          have hrun : ExecuteO env rc = ⟨.nilPanic, none, ev0, []⟩ := by
            simp only [ExecuteO, ExecuteFuel, hE, hX, hP]
          rw [hrun]
          exact ⟨Or.inl rfl, fun h => by simp [vesCalls, startsWithExec] at h⟩
        | some task =>
          have hrun : ExecuteO env rc =
              ⟨.ok, some (transitionToFailedT task
                  ("failed to extract payment state: " ++ e)
                  "state_extraction_failed").1,
                ev0 ++ [(transitionToFailedT task
                  ("failed to extract payment state: " ++ e)
                  "state_extraction_failed").2], []⟩ := by
            simp only [ExecuteO, ExecuteFuel, hE, hX, hP]
          rw [hrun]
          exact ⟨Or.inl rfl, fun h => by simp [vesCalls, startsWithExec] at h⟩
      | ok ps =>
        have hrun : ExecuteO env rc =
            loopGo env rc.message 5 t? (some ps) ev0 [] := by
          simp only [ExecuteO, ExecuteFuel, hE, hX, hP]
        rw [hrun, show (5:Nat) = 4+1 from rfl]
        cases t? with
        | none =>
          rw [loopGo_none]
          exact ⟨Or.inl rfl, fun h => by simp [vesCalls, startsWithExec] at h⟩
        | some task =>
          by_cases hterm : task.status.state = .failed ∨
            task.status.state = .completed
          · rw [loopGo_terminal env rc.message 4 task (some ps) ev0 [] hterm]
            exact ⟨Or.inl rfl, fun h => by simp [vesCalls, startsWithExec] at h⟩
          · have h1 : ¬task.status.state = .failed := fun h => hterm (Or.inl h)
            have h2 : ¬task.status.state = .completed := fun h => hterm (Or.inr h)
            by_cases h3 : ps.status = PaymentRequiredStatus
            · cases hp : ps.payload with
              | none =>
                rw [loopGo_required_noPayload env rc.message 4 task ps ev0 []
                  h1 h2 h3 hp]
                exact ⟨Or.inl rfl, fun h => by simp [vesCalls, startsWithExec] at h⟩
              | some p =>
                have hsh := handleSubmitted_shape env rc.message task
                  { ps with status := PaymentSubmittedStatus } hterm
                rw [loopGo_required_payload env rc.message 4 task ps p ev0 []
                  h1 h2 h3 hp hsh.1]
                rcases hsh.2 with ⟨hfail, hpsnone, hcase⟩ |
                  ⟨hstate, ⟨ps', hps', hst'⟩, hcalls⟩
                · rw [hpsnone, show (4:Nat) = 3+1 from rfl,
                    loopGo_terminal env rc.message 3 _ none _ _ (Or.inl hfail)]
                  rcases hcase with hc | hc <;> rw [hc] <;>
                    exact ⟨by simp [vesTraceAllowed, vesCalls, isVES], fun hh => by
                      simp [vesCalls, isVES, startsWithExec] at hh⟩
                · rw [hps', hcalls]
                  have h1' : ¬(handlePaymentSubmitted env rc.message task
                      { ps with status := PaymentSubmittedStatus }).task.status.state =
                      .failed := by rw [hstate]; exact h1
                  have h2' : ¬(handlePaymentSubmitted env rc.message task
                      { ps with status := PaymentSubmittedStatus }).task.status.state =
                      .completed := by rw [hstate]; exact h2
                  rw [show (4:Nat) = 3+1 from rfl]
                  rcases handleVerified_shape env (handlePaymentSubmitted env
                      rc.message task
                      { ps with status := PaymentSubmittedStatus }).task ps' with
                    ⟨e, hv⟩ | ⟨e, hv⟩ | ⟨e, hv⟩ | ⟨ps'', hv, hst''⟩
                  · rw [loopGo_verified_err env rc.message 3 _ ps' e _ _ _
                      h1' h2' hst' hv]
                    exact ⟨by simp [vesTraceAllowed, vesCalls, isVES], fun h => by
                      simp [vesCalls, isVES, startsWithExec] at h⟩
                  · rw [loopGo_verified_err env rc.message 3 _ ps' e _ _ _
                      h1' h2' hst' hv]
                    exact ⟨by simp [vesTraceAllowed, vesCalls, isVES], fun h => by
                      simp [vesCalls, isVES, startsWithExec] at h⟩
                  · rw [loopGo_verified_err env rc.message 3 _ ps' e _ _ _
                      h1' h2' hst' hv]
                    exact ⟨by simp [vesTraceAllowed, vesCalls, isVES], fun h => by
                      simp [vesCalls, isVES, startsWithExec] at h⟩
                  · rw [loopGo_verified_ok env rc.message 3 _ ps' ps'' _ _ _
                      h1' h2' hst' hv, show (3:Nat) = 2+1 from rfl,
                      loopGo_completed env rc.message 2 _ ps'' _ _ h1' h2' hst'']
                    exact ⟨by simp [vesTraceAllowed, vesCalls, isVES], fun h => by
                      simp [vesCalls, isVES, startsWithExec] at h⟩
            · by_cases h4 : ps.status = PaymentSubmittedStatus
              · have hsh := handleSubmitted_shape env rc.message task ps hterm
                rw [loopGo_submitted env rc.message 4 task ps ev0 [] h1 h2 h4
                  hsh.1]
                rcases hsh.2 with ⟨hfail, hpsnone, hcase⟩ |
                  ⟨hstate, ⟨ps', hps', hst'⟩, hcalls⟩
                · rw [hpsnone, show (4:Nat) = 3+1 from rfl,
                    loopGo_terminal env rc.message 3 _ none _ _ (Or.inl hfail)]
                  rcases hcase with hc | hc <;> rw [hc] <;>
                    exact ⟨by simp [vesTraceAllowed, vesCalls, isVES], fun hh => by
                      simp [vesCalls, isVES, startsWithExec] at hh⟩
                · rw [hps', hcalls]
                  have h1' : ¬(handlePaymentSubmitted env rc.message task
                      ps).task.status.state = .failed := by rw [hstate]; exact h1
                  have h2' : ¬(handlePaymentSubmitted env rc.message task
                      ps).task.status.state = .completed := by rw [hstate]; exact h2
                  rw [show (4:Nat) = 3+1 from rfl]
                  rcases handleVerified_shape env (handlePaymentSubmitted env
                      rc.message task ps).task ps' with
                    ⟨e, hv⟩ | ⟨e, hv⟩ | ⟨e, hv⟩ | ⟨ps'', hv, hst''⟩
                  · rw [loopGo_verified_err env rc.message 3 _ ps' e _ _ _
                      h1' h2' hst' hv]
                    exact ⟨by simp [vesTraceAllowed, vesCalls, isVES], fun h => by
                      simp [vesCalls, isVES, startsWithExec] at h⟩
                  · rw [loopGo_verified_err env rc.message 3 _ ps' e _ _ _
                      h1' h2' hst' hv]
                    exact ⟨by simp [vesTraceAllowed, vesCalls, isVES], fun h => by
                      simp [vesCalls, isVES, startsWithExec] at h⟩
                  · rw [loopGo_verified_err env rc.message 3 _ ps' e _ _ _
                      h1' h2' hst' hv]
                    exact ⟨by simp [vesTraceAllowed, vesCalls, isVES], fun h => by
                      simp [vesCalls, isVES, startsWithExec] at h⟩
                  · rw [loopGo_verified_ok env rc.message 3 _ ps' ps'' _ _ _
                      h1' h2' hst' hv, show (3:Nat) = 2+1 from rfl,
                      loopGo_completed env rc.message 2 _ ps'' _ _ h1' h2' hst'']
                    exact ⟨by simp [vesTraceAllowed, vesCalls, isVES], fun h => by
                      simp [vesCalls, isVES, startsWithExec] at h⟩
              · by_cases h5 : ps.status = PaymentVerifiedStatus
                · rcases handleVerified_shape env task ps with
                    ⟨e, hv⟩ | ⟨e, hv⟩ | ⟨e, hv⟩ | ⟨ps'', hv, hst''⟩
                  · rw [loopGo_verified_err env rc.message 4 task ps e _ _ _
                      h1 h2 h5 hv]
                    exact ⟨Or.inl rfl, fun h => by
                      simp [vesCalls, isVES, startsWithExec] at h⟩
                  · rw [loopGo_verified_err env rc.message 4 task ps e _ _ _
                      h1 h2 h5 hv]
                    exact ⟨by simp [vesTraceAllowed, vesCalls, isVES], fun _ => ⟨ps, rfl, h5⟩⟩
                  · rw [loopGo_verified_err env rc.message 4 task ps e _ _ _
                      h1 h2 h5 hv]
                    exact ⟨by simp [vesTraceAllowed, vesCalls, isVES], fun _ => ⟨ps, rfl, h5⟩⟩
                  · rw [loopGo_verified_ok env rc.message 4 task ps ps'' _ _ _
                      h1 h2 h5 hv, show (4:Nat) = 3+1 from rfl,
                      loopGo_completed env rc.message 3 task ps'' _ _ h1 h2 hst'']
                    exact ⟨by simp [vesTraceAllowed, vesCalls, isVES], fun _ => ⟨ps, rfl, h5⟩⟩
                · by_cases h6 : ps.status = PaymentCompletedStatus
                  · rw [loopGo_completed env rc.message 4 task ps ev0 [] h1 h2 h6]
                    exact ⟨Or.inl rfl, fun h => by
                      simp [vesCalls, startsWithExec] at h⟩
                  · rw [loopGo_default env rc.message 4 task ps ev0 [] h1 h2 h3
                      h4 h5 h6]
                    cases hb : buildPaymentRequirementsO env
                        (ExtractMessageText (some rc.message)) with
                    | mk res bcalls =>
                      have hbv : vesCalls bcalls = [] := by
                        have := buildO_calls_build env
                          (ExtractMessageText (some rc.message))
                        rw [hb] at this
                        exact this
                      cases res with
                      | error e =>
                        refine ⟨?_, fun h => ?_⟩
                        · exact Or.inl (by simp [vesCalls] at hbv ⊢; exact hbv)
                        · simp only [vesCalls, List.nil_append] at h hbv
                          rw [hbv] at h
                          simp [startsWithExec] at h
                      | ok ps' =>
                        refine ⟨?_, fun h => ?_⟩
                        · exact Or.inl (by simp [vesCalls] at hbv ⊢; exact hbv)
                        · simp only [vesCalls, List.nil_append] at h hbv
                          rw [hbv] at h
                          simp [startsWithExec] at h

/-- C1 witness: a verified-entry run whose trace starts with an execute
call; the implication of the amended claim yields the verified entry
state. -/
theorem C1_witness :
    startsWithExec (vesCalls (ExecuteO envHappy rcVerifiedEntry).calls) = true ∧
    (∃ ps, ExtractPaymentState (entryTask rcVerifiedEntry)
        (some rcVerifiedEntry.message) = .ok ps ∧
      ps.status = PaymentVerifiedStatus) :=
  ⟨rfl, (C1_theorem envHappy rcVerifiedEntry).2 rfl⟩

/-- C8 witness: the happy-path environment against a stored task whose
metadata is payment-verified with payload and requirements but no
original prompt. -/
theorem C8_witness :
    (ExecuteO envHappy rcVerifiedNoPrompt).calls = [] ∧
    resultTaskState (ExecuteO envHappy rcVerifiedNoPrompt) = some .failed ∧
    resultTaskMetaLookup (ExecuteO envHappy rcVerifiedNoPrompt) MetadataKeyError =
      some (.vStr "business_execution_failed") :=
  C8_theorem envHappy rcVerifiedNoPrompt verifiedNoPromptTask
    [X402ExtensionURI]
    ⟨PaymentVerifiedStatus, "", some ⟨2, [reqA]⟩, some payloadA, []⟩
    rfl (by decide) (by decide) rfl (by decide) (by rfl) rfl rfl

end X402
